import Mathlib

/-!
Shallow embedding of the OpenAgora Job/Bid Lifecycle & Settlement Engine
(src/bazaar: models.py, bidding/{submit,negotiate,accept,rank}.py,
payments/{release,refund}.py, api.py submit_human_review), with theorems
checking the natural-language specification's claims against it.

Conventions of the embedding:
- money and scores are rationals (the code uses Python floats);
- the Mongo collections are lists of records; `find_one` is `List.find?`,
  `update_one` updates the first match, `insert_one` appends;
- a Python function that raises becomes `Except Err Mkt` (the code raises
  before any write on every error path, so an error carries no state);
- a function returning `None` on failure becomes `Option t × Mkt` with the
  state unchanged in the `none` case;
- the x402 gateway call is a boolean input `gwOk` (the simulated gateway
  always succeeds; the code checks `result.success` before any write);
- `datetime.utcnow()` timestamps are dropped; the `bid_deadline` check in
  `submit_bid` takes the current time as a `now : Nat` argument.
-/

namespace Agora

/-- models.py `AgentStatus`. -/
inductive AgentStatus where
  | available
  | busy
  | offline
  | suspended
deriving DecidableEq, Repr

/-- models.py `JobStatus` (`open` is a Lean keyword, so `OPEN` is `open_`). -/
inductive JobStatus where
  | open_
  | posted
  | bidding
  | negotiating
  | awaiting_approval
  | assigned
  | in_progress
  | pending_review
  | completed
  | disputed
  | cancelled
deriving DecidableEq, Repr

/-- models.py `BidStatus`. -/
inductive BidStatus where
  | pending
  | counter_offered
  | counter_accepted
  | awaiting_approval
  | accepted
  | rejected
  | withdrawn
deriving DecidableEq, Repr

/-- models.py `TransactionType`. -/
inductive TransactionType where
  | escrow
  | release
  | refund
deriving DecidableEq, Repr

/-- models.py `TransactionStatus`. -/
inductive TransactionStatus where
  | pending
  | escrowed
  | released
  | refunded
  | failed
deriving DecidableEq, Repr

/-- models.py `CounterOffer` (`by` is a Lean keyword, so the field is `by_`). -/
structure CounterOffer where
  price_usd : ℚ
  message : String
  by_ : String
deriving DecidableEq, Repr

/-- models.py `BazaarBid` (timestamps dropped). -/
structure BazaarBid where
  bid_id : String
  job_id : String
  agent_id : String
  price_usd : ℚ
  estimated_time_seconds : ℚ
  confidence : ℚ
  approach : String
  counter_offers : List CounterOffer
  final_price_usd : Option ℚ
  requires_approval : Bool
  approval_reason : Option String
  approved_by : Option String
  status : BidStatus
deriving DecidableEq, Repr

/-- models.py `BazaarJob`, restricted to the fields the embedded operations
read or write (title/description/embedding payloads dropped). -/
structure BazaarJob where
  job_id : String
  poster_id : String
  status : JobStatus
  budget_usd : ℚ
  required_capabilities : List String
  min_capability_score : ℚ
  deadline_minutes : ℚ
  bid_deadline : Option Nat
  bid_count : Nat
  escrow_txn_id : Option String
  winning_bid_id : Option String
  assigned_agent_id : Option String
  final_price_usd : Option ℚ
  quality_score : Option ℚ
deriving DecidableEq, Repr

/-- models.py `BazaarAgent`, restricted to the fields the embedded operations
read or write. Capabilities are an association list name ↦ score. -/
structure BazaarAgent where
  agent_id : String
  capabilities : List (String × ℚ)
  rating_avg : ℚ
  rating_count : Nat
  jobs_completed : Nat
  jobs_failed : Nat
  total_earned_usd : ℚ
  status : AgentStatus
deriving DecidableEq, Repr

/-- models.py `BazaarTransaction`, restricted to the fields the embedded
operations read or write. -/
structure BazaarTransaction where
  txn_id : String
  txn_type : TransactionType
  job_id : String
  bid_id : Option String
  payer_id : String
  payee_id : Option String
  amount_usd : ℚ
  status : TransactionStatus
deriving DecidableEq, Repr

/-- The marketplace database (db.py collections). -/
structure Mkt where
  jobs : List BazaarJob
  bids : List BazaarBid
  agents : List BazaarAgent
  txns : List BazaarTransaction
deriving DecidableEq, Repr

/-- Mongo `update_one`: rewrite the first element matching `p` with `f`. -/
def updateFirst {α : Type} (p : α → Bool) (f : α → α) : List α → List α
  | [] => []
  | x :: xs => if p x then f x :: xs else x :: updateFirst p f xs

/-- db.py `get_job`. -/
def get_job (st : Mkt) (job_id : String) : Option BazaarJob :=
  st.jobs.find? (fun j => j.job_id == job_id)

/-- db.py `get_bid`. -/
def get_bid (st : Mkt) (bid_id : String) : Option BazaarBid :=
  st.bids.find? (fun b => b.bid_id == bid_id)

/-- db.py `get_agent`. -/
def get_agent (st : Mkt) (agent_id : String) : Option BazaarAgent :=
  st.agents.find? (fun a => a.agent_id == agent_id)

/-- db.py `get_transaction`. -/
def get_transaction (st : Mkt) (txn_id : String) : Option BazaarTransaction :=
  st.txns.find? (fun t => t.txn_id == txn_id)

/-- db.py `update_job` (`$set` on the first match; no-op when missing). -/
def update_job (st : Mkt) (job_id : String) (f : BazaarJob → BazaarJob) : Mkt :=
  { st with jobs := updateFirst (fun j => j.job_id == job_id) f st.jobs }

/-- db.py `update_bid`. -/
def update_bid (st : Mkt) (bid_id : String) (f : BazaarBid → BazaarBid) : Mkt :=
  { st with bids := updateFirst (fun b => b.bid_id == bid_id) f st.bids }

/-- db.py `update_agent`. -/
def update_agent (st : Mkt) (agent_id : String) (f : BazaarAgent → BazaarAgent) : Mkt :=
  { st with agents := updateFirst (fun a => a.agent_id == agent_id) f st.agents }

/-- db.py `update_transaction`. -/
def update_transaction (st : Mkt) (txn_id : String) (f : BazaarTransaction → BazaarTransaction) : Mkt :=
  { st with txns := updateFirst (fun t => t.txn_id == txn_id) f st.txns }

/-- db.py `create_bid`: insert the bid and increment the job's bid count. -/
def create_bid (st : Mkt) (b : BazaarBid) : Mkt :=
  { st with
    bids := st.bids ++ [b]
    jobs := updateFirst (fun j => j.job_id == b.job_id)
      (fun j => { j with bid_count := j.bid_count + 1 }) st.jobs }

/-- db.py `create_transaction`. -/
def create_transaction (st : Mkt) (t : BazaarTransaction) : Mkt :=
  { st with txns := st.txns ++ [t] }

/-- db.py `get_bids_for_job`. -/
def get_bids_for_job (st : Mkt) (job_id : String) : List BazaarBid :=
  st.bids.filter (fun b => b.job_id == job_id)

/-- Python `x or default` on an optional number: `None` and `0.0` are falsy. -/
def orFalsy (o : Option ℚ) (dflt : ℚ) : ℚ :=
  match o with
  | none => dflt
  | some v => if v = 0 then dflt else v

/-- `caps.get(cap, 0)` on a capability association list. -/
def lookupCap (caps : List (String × ℚ)) (cap : String) : ℚ :=
  match caps.find? (fun p => p.1 == cap) with
  | some p => p.2
  | none => 0

/-- The error taxonomy: one constructor per distinct `ValueError` /
`HTTPException` raise site in the embedded functions. -/
inductive Err where
  | jobNotFound
  | bidNotFound
  | agentNotFound
  | jobNotAcceptingBids
  | deadlinePassed
  | agentNotAvailable
  | overBudget
  | capabilityGap
  | notOpenForNegotiation
  | negotiationLimit
  | noCounterOffer
  | notAwaitingApproval
  | notPoster
  | bidNotForJob
  | bidNotPending
  | notBidOwner
  | onlyPendingWithdraw
  | escrowNotFound
  | escrowNotActive
  | x402Failed
  | jobNotPendingReview
  | invalidRating
deriving DecidableEq, Repr

/-- negotiate.py `HUMAN_APPROVAL_THRESHOLD_USD`. -/
def HUMAN_APPROVAL_THRESHOLD_USD : ℚ := 10

/-- negotiate.py `MAX_COUNTER_OFFERS`. -/
def MAX_COUNTER_OFFERS : Nat := 5

/-- The statuses negotiate.py treats as open for negotiation. -/
def negotiable (s : BidStatus) : Bool :=
  s == .pending || s == .counter_offered || s == .counter_accepted

/-- negotiate.py `make_counter_offer`. -/
def make_counter_offer (st : Mkt) (bid_id : String) (new_price : ℚ)
    (message : String) (by_ : String) : Except Err Mkt :=
  match get_bid st bid_id with
  | none => .error .bidNotFound
  | some bid =>
    if ¬ negotiable bid.status then .error .notOpenForNegotiation
    else if MAX_COUNTER_OFFERS ≤ bid.counter_offers.length then .error .negotiationLimit
    else
      let counter : CounterOffer := { price_usd := new_price, message := message, by_ := by_ }
      let counter_offers := bid.counter_offers ++ [counter]
      let requires_approval : Bool := HUMAN_APPROVAL_THRESHOLD_USD ≤ new_price
      let new_status := if requires_approval then BidStatus.awaiting_approval else .counter_offered
      let approval_reason : Option String :=
        if requires_approval then some "Transaction exceeds threshold" else none
      let st1 := update_bid st bid_id (fun b =>
        { b with counter_offers := counter_offers, status := new_status,
                 requires_approval := requires_approval, approval_reason := approval_reason })
      let st2 :=
        match get_job st1 bid.job_id with
        | some _ => update_job st1 bid.job_id (fun j =>
            { j with status := if requires_approval then JobStatus.awaiting_approval else .negotiating })
        | none => st1
      .ok st2

/-- negotiate.py `accept_counter_offer`. -/
def accept_counter_offer (st : Mkt) (bid_id : String) (_by : String) : Except Err Mkt :=
  match get_bid st bid_id with
  | none => .error .bidNotFound
  | some bid =>
    match bid.counter_offers.getLast? with
    | none => .error .noCounterOffer
    | some last =>
      let final_price := last.price_usd
      if bid.requires_approval && bid.approved_by.isNone then
        .ok (update_bid st bid_id (fun b =>
          { b with status := .awaiting_approval, final_price_usd := some final_price }))
      else
        .ok (update_bid st bid_id (fun b =>
          { b with status := .counter_accepted, final_price_usd := some final_price }))

/-- negotiate.py `approve_bid`. -/
def approve_bid (st : Mkt) (bid_id : String) (approver_id : String) : Except Err Mkt :=
  match get_bid st bid_id with
  | none => .error .bidNotFound
  | some bid =>
    if bid.status ≠ .awaiting_approval then .error .notAwaitingApproval
    else
      let final_price := orFalsy bid.final_price_usd bid.price_usd
      let st1 := update_bid st bid_id (fun b =>
        { b with status := .accepted, approved_by := some approver_id,
                 final_price_usd := some final_price })
      let st2 := update_job st1 bid.job_id (fun j =>
        { j with status := .assigned, winning_bid_id := some bid_id,
                 assigned_agent_id := some bid.agent_id })
      .ok st2

/-- negotiate.py `reject_bid`: no status precondition at all. -/
def reject_bid (st : Mkt) (bid_id : String) (_rejector_id : String) (_reason : String) :
    Except Err Mkt :=
  match get_bid st bid_id with
  | none => .error .bidNotFound
  | some _ => .ok (update_bid st bid_id (fun b => { b with status := .rejected }))

/-- submit.py: the job statuses accepting new bids. -/
def acceptsNewBids (s : JobStatus) : Bool :=
  s == .open_ || s == .posted || s == .bidding

/-- submit.py `submit_bid`. The generated uuid is the `bid_id` argument; the
current time is the `now` argument (the code compares `datetime.utcnow()`
against the job's `bid_deadline`). -/
def submit_bid (st : Mkt) (now : Nat) (job_id agent_id bid_id : String)
    (price_usd estimated_time_seconds confidence : ℚ) (approach : String) :
    Except Err Mkt :=
  match get_job st job_id with
  | none => .error .jobNotFound
  | some job =>
    if ¬ acceptsNewBids job.status then .error .jobNotAcceptingBids
    else if (match job.bid_deadline with | some d => decide (d < now) | none => false) then
      .error .deadlinePassed
    else
      match get_agent st agent_id with
      | none => .error .agentNotFound
      | some agent =>
        if agent.status ≠ .available then .error .agentNotAvailable
        else if job.budget_usd < price_usd then .error .overBudget
        else if ¬ job.required_capabilities.all
            (fun cap => job.min_capability_score ≤ lookupCap agent.capabilities cap) then
          .error .capabilityGap
        else
          .ok (create_bid st
            { bid_id := bid_id, job_id := job_id, agent_id := agent_id,
              price_usd := price_usd, estimated_time_seconds := estimated_time_seconds,
              confidence := confidence, approach := approach, counter_offers := [],
              final_price_usd := none, requires_approval := false,
              approval_reason := none, approved_by := none, status := .pending })

/-- submit.py `withdraw_bid`. -/
def withdraw_bid (st : Mkt) (bid_id agent_id : String) : Except Err Mkt :=
  match get_bid st bid_id with
  | none => .error .bidNotFound
  | some bid =>
    if bid.agent_id ≠ agent_id then .error .notBidOwner
    else if bid.status ≠ .pending then .error .onlyPendingWithdraw
    else .ok (update_bid st bid_id (fun b => { b with status := .withdrawn }))

/-- submit.py `select_winning_bid`: no status precondition on job or bid, and
no approval check. -/
def select_winning_bid (st : Mkt) (job_id bid_id : String) : Except Err Mkt :=
  match get_job st job_id with
  | none => .error .jobNotFound
  | some _ =>
    match get_bid st bid_id with
    | none => .error .bidNotFound
    | some bid =>
      if bid.job_id ≠ job_id then .error .bidNotForJob
      else
        let final_price := orFalsy bid.final_price_usd bid.price_usd
        let st1 := update_bid st bid_id (fun b =>
          { b with status := .accepted, final_price_usd := some final_price })
        let st2 := update_job st1 job_id (fun j =>
          { j with status := .assigned, winning_bid_id := some bid_id,
                   assigned_agent_id := some bid.agent_id,
                   final_price_usd := some final_price })
        .ok st2

/-- accept.py `accept_bid`. -/
def accept_bid (st : Mkt) (job_id bid_id poster_id : String) : Except Err Mkt :=
  match get_job st job_id with
  | none => .error .jobNotFound
  | some job =>
    if job.poster_id ≠ poster_id then .error .notPoster
    else if ¬ (job.status == .open_ || job.status == .bidding) then .error .jobNotAcceptingBids
    else
      match get_bid st bid_id with
      | none => .error .bidNotFound
      | some bid =>
        if bid.job_id ≠ job_id then .error .bidNotForJob
        else if bid.status ≠ .pending then .error .bidNotPending
        else
          let agent_id := bid.agent_id
          let st1 := update_bid st bid_id (fun b => { b with status := .accepted })
          let st2 := { st1 with
            bids := st1.bids.map (fun b =>
              if b.job_id == job_id && b.bid_id != bid_id && b.status == .pending then
                { b with status := .rejected }
              else b) }
          let st3 := update_job st2 job_id (fun j =>
            { j with status := .assigned, winning_bid_id := some bid_id,
                     assigned_agent_id := some agent_id })
          let st4 := update_agent st3 agent_id (fun a => { a with status := .busy })
          .ok st4

/-- Python `round(x, 3)`: round half to even, at three decimal places. -/
def roundHalfEven (x : ℚ) : ℤ :=
  let f := ⌊x⌋
  let frac := x - f
  if frac < 1/2 then f
  else if 1/2 < frac then f + 1
  else if Even f then f else f + 1

/-- `round(score, 3)` at the end of rank.py `_calculate_bid_score`. -/
def roundTo3 (x : ℚ) : ℚ := (roundHalfEven (x * 1000) : ℚ) / 1000

/-- rank.py `_calculate_bid_score`: the running `score += ...` accumulation,
then `round(score, 3)`. -/
def calculate_bid_score (bid : BazaarBid) (agent : BazaarAgent) (job : BazaarJob) : ℚ :=
  let score : ℚ := 0
  let budget := job.budget_usd
  let price := bid.price_usd
  let price_ratio := price / budget
  let price_score := max 0 (1 - price_ratio)
  let score := score + price_score * 0.30
  let confidence := bid.confidence
  let score := score + confidence * 0.25
  let rating := agent.rating_avg
  let rating_score := rating / 5
  let score := score + rating_score * 0.20
  let estimated_time := bid.estimated_time_seconds
  let deadline_seconds := job.deadline_minutes * 60
  let time_ratio := estimated_time / deadline_seconds
  let speed_score := max 0 (1 - time_ratio)
  let score := score + speed_score * 0.15
  let required_caps := job.required_capabilities
  let avg_cap :=
    if required_caps.length ≠ 0 then
      (required_caps.map (lookupCap agent.capabilities)).sum / (required_caps.length : ℚ)
    else 0.8
  let score := score + avg_cap * 0.10
  roundTo3 score

/-- release.py `release_payment`. `amount_usd or escrow_txn["amount_usd"]`
is `orFalsy`; the x402 transfer outcome is `gwOk`. -/
def release_payment (st : Mkt) (gwOk : Bool) (escrow_txn_id payee_id : String)
    (amount_usd : Option ℚ) (new_txn_id : String) : Except Err Mkt :=
  match get_transaction st escrow_txn_id with
  | none => .error .escrowNotFound
  | some escrow_txn =>
    if escrow_txn.status ≠ .escrowed then .error .escrowNotActive
    else
      let release_amount := orFalsy amount_usd escrow_txn.amount_usd
      if ¬ gwOk then .error .x402Failed
      else
        let release_txn : BazaarTransaction :=
          { txn_id := new_txn_id, txn_type := .release, job_id := escrow_txn.job_id,
            bid_id := escrow_txn.bid_id, payer_id := escrow_txn.payer_id,
            payee_id := some payee_id, amount_usd := release_amount, status := .released }
        let st1 := create_transaction st release_txn
        let st2 := update_transaction st1 escrow_txn_id (fun t => { t with status := .released })
        let st3 :=
          match get_agent st2 payee_id with
          | some agent => update_agent st2 payee_id (fun a =>
              { a with total_earned_usd := agent.total_earned_usd + release_amount })
          | none => st2
        .ok st3

/-- refund.py `refund_payment`: returns `None` (and writes nothing) when the
escrow is missing, not in `escrowed` status, or the x402 transfer fails. -/
def refund_payment (st : Mkt) (gwOk : Bool) (escrow_txn_id new_txn_id : String) :
    Option BazaarTransaction × Mkt :=
  match get_transaction st escrow_txn_id with
  | none => (none, st)
  | some escrow_txn =>
    if escrow_txn.status ≠ .escrowed then (none, st)
    else if ¬ gwOk then (none, st)
    else
      let refund_txn : BazaarTransaction :=
        { txn_id := new_txn_id, txn_type := .refund, job_id := escrow_txn.job_id,
          bid_id := none, payer_id := escrow_txn.payer_id,
          payee_id := some escrow_txn.payer_id, amount_usd := escrow_txn.amount_usd,
          status := .refunded }
      let st1 := create_transaction st refund_txn
      let st2 := update_transaction st1 escrow_txn_id (fun t => { t with status := .refunded })
      (some refund_txn, st2)

/-- refund.py `partial_refund`: caps the amount at the escrow's amount, but
has no status precondition, never flips the escrow's status, and calls no
gateway. -/
def partial_refund (st : Mkt) (escrow_txn_id : String) (refund_amount : ℚ)
    (new_txn_id : String) : Option BazaarTransaction × Mkt :=
  match get_transaction st escrow_txn_id with
  | none => (none, st)
  | some escrow_txn =>
    let amt := if escrow_txn.amount_usd < refund_amount then escrow_txn.amount_usd
      else refund_amount
    let refund_txn : BazaarTransaction :=
      { txn_id := new_txn_id, txn_type := .refund, job_id := escrow_txn.job_id,
        bid_id := none, payer_id := escrow_txn.payer_id,
        payee_id := some escrow_txn.payer_id, amount_usd := amt, status := .refunded }
    (some refund_txn, create_transaction st refund_txn)

/-- api.py `HumanReviewRequest.decision` values (`partial` is a Lean keyword
context, hence `partial_pay`). -/
inductive ReviewDecision where
  | accept
  | partial_pay
  | reject
deriving DecidableEq, Repr

/-- api.py submit_human_review lines 1256-1265: the rating-average update,
computed from the agent snapshot fetched before the payment step. -/
def apply_review_rating (st : Mkt) (agent0 : Option BazaarAgent) (rating : ℚ) : Mkt :=
  match agent0 with
  | none => st
  | some a0 =>
    let new_count := a0.rating_count + 1
    let new_rating := (a0.rating_avg * a0.rating_count + rating * 5) / (new_count : ℚ)
    update_agent st a0.agent_id (fun a =>
      { a with rating_avg := min 5 new_rating, rating_count := new_count })

/-- api.py `submit_human_review`. The review decision is written to the job
(status `completed`, whatever the decision) before the payment step; payment
failures are swallowed into the response, so the job write persists. The
agent-stat updates use the snapshot `agent0` fetched before the payment, as
the handler does. -/
def submit_human_review (st : Mkt) (gwOk : Bool) (job_id : String)
    (decision : ReviewDecision) (rating : ℚ) (_reviewer_id : String)
    (new_txn_id : String) : Except Err Mkt :=
  match get_job st job_id with
  | none => .error .jobNotFound
  | some job =>
    if job.status ≠ .pending_review then .error .jobNotPendingReview
    else if ¬ (0 ≤ rating ∧ rating ≤ 1) then .error .invalidRating
    else
      let st1 := update_job st job_id (fun j =>
        { j with status := .completed, quality_score := some rating })
      let agent0 :=
        match job.assigned_agent_id with
        | some aid => get_agent st1 aid
        | none => none
      let agreed_price := orFalsy job.final_price_usd job.budget_usd
      match job.escrow_txn_id with
      | none => .ok (apply_review_rating st1 agent0 rating)
      | some escrow_txn_id =>
        match decision with
        | .accept =>
          let payee := (job.assigned_agent_id).getD ""
          (match release_payment st1 gwOk escrow_txn_id payee (some agreed_price) new_txn_id with
           | .ok st2 =>
             let st3 :=
               match agent0 with
               | some a0 => update_agent st2 a0.agent_id (fun a =>
                   { a with jobs_completed := a0.jobs_completed + 1,
                            total_earned_usd := a0.total_earned_usd + agreed_price })
               | none => st2
             .ok (apply_review_rating st3 agent0 rating)
           | .error _ => .ok (apply_review_rating st1 agent0 rating))
        | .partial_pay =>
          let payee := (job.assigned_agent_id).getD ""
          let partial_amount := agreed_price * 0.5
          (match release_payment st1 gwOk escrow_txn_id payee (some partial_amount) new_txn_id with
           | .ok st2 =>
             let st3 :=
               match agent0 with
               | some a0 => update_agent st2 a0.agent_id (fun a =>
                   { a with jobs_completed := a0.jobs_completed + 1,
                            total_earned_usd := a0.total_earned_usd + partial_amount })
               | none => st2
             .ok (apply_review_rating st3 agent0 rating)
           | .error _ => .ok (apply_review_rating st1 agent0 rating))
        | .reject =>
          let st2 := (refund_payment st1 gwOk escrow_txn_id new_txn_id).2
          let st3 :=
            match agent0 with
            | some a0 => update_agent st2 a0.agent_id (fun a =>
                { a with jobs_failed := a0.jobs_failed + 1 })
            | none => st2
          .ok (apply_review_rating st3 agent0 rating)

/-- One public operation of the engine, with every external input (fresh ids,
clock, gateway outcome) carried in the constructor. -/
inductive Op where
  | submitBid (now : Nat) (job_id agent_id bid_id : String)
      (price est conf : ℚ) (approach : String)
  | makeCounterOffer (bid_id : String) (new_price : ℚ) (message by_ : String)
  | acceptCounterOffer (bid_id by_ : String)
  | approveBid (bid_id approver_id : String)
  | rejectBid (bid_id rejector_id reason : String)
  | withdrawBid (bid_id agent_id : String)
  | acceptBid (job_id bid_id poster_id : String)
  | selectWinningBid (job_id bid_id : String)
  | releasePayment (gwOk : Bool) (escrow_txn_id payee_id : String)
      (amount : Option ℚ) (new_txn_id : String)
  | refundPayment (gwOk : Bool) (escrow_txn_id new_txn_id : String)
  | partialRefund (escrow_txn_id : String) (amount : ℚ) (new_txn_id : String)
  | humanReview (gwOk : Bool) (job_id : String) (d : ReviewDecision)
      (rating : ℚ) (reviewer_id new_txn_id : String)
deriving DecidableEq, Repr

/-- Run one operation; a raising operation leaves the store unchanged (every
embedded function only errors before its first write). -/
def applyOp (st : Mkt) (op : Op) : Mkt :=
  match op with
  | .submitBid now j a b p e c ap => ((submit_bid st now j a b p e c ap).toOption).getD st
  | .makeCounterOffer b p m w => ((make_counter_offer st b p m w).toOption).getD st
  | .acceptCounterOffer b w => ((accept_counter_offer st b w).toOption).getD st
  | .approveBid b ap => ((approve_bid st b ap).toOption).getD st
  | .rejectBid b r re => ((reject_bid st b r re).toOption).getD st
  | .withdrawBid b a => ((withdraw_bid st b a).toOption).getD st
  | .acceptBid j b p => ((accept_bid st j b p).toOption).getD st
  | .selectWinningBid j b => ((select_winning_bid st j b).toOption).getD st
  | .releasePayment gw e p amt t => ((release_payment st gw e p amt t).toOption).getD st
  | .refundPayment gw e t => (refund_payment st gw e t).2
  | .partialRefund e amt t => (partial_refund st e amt t).2
  | .humanReview gw j d r rv t => ((submit_human_review st gw j d r rv t).toOption).getD st

/-- Run a sequence of public operations. -/
def run (st : Mkt) (ops : List Op) : Mkt := ops.foldl applyOp st

/-! Helper lemmas about `updateFirst` and the store. -/

theorem updateFirst_of_find?_eq_none {α : Type} {p : α → Bool} (f : α → α) :
    ∀ {l : List α}, l.find? p = none → updateFirst p f l = l := by
  intro l
  induction l with
  | nil => intro _; rfl
  | cons x xs ih =>
    intro h
    rw [List.find?_cons] at h
    cases hx : p x with
    | true => simp [hx] at h
    | false =>
      simp only [hx] at h
      simp [updateFirst, hx, ih h]

theorem find?_eq_some_decomp {α : Type} {p : α → Bool} {l : List α} {a : α}
    (h : l.find? p = some a) :
    ∃ l1 l2, l = l1 ++ a :: l2 ∧ (∀ x ∈ l1, p x = false) ∧
      ∀ f : α → α, updateFirst p f l = l1 ++ f a :: l2 := by
  induction l with
  | nil => simp at h
  | cons x xs ih =>
    rw [List.find?_cons] at h
    cases hx : p x with
    | true =>
      simp only [hx] at h
      obtain rfl : x = a := by simpa using h
      exact ⟨[], xs, rfl, by simp, fun f => by simp [updateFirst, hx]⟩
    | false =>
      simp only [hx] at h
      obtain ⟨l1, l2, rfl, hl1, hupd⟩ := ih h
      exact ⟨x :: l1, l2, rfl, by simpa [hx] using hl1,
        fun f => by simp [updateFirst, hx, hupd f]⟩

theorem mem_updateFirst {α : Type} {p : α → Bool} {f : α → α} :
    ∀ {l : List α} {x : α}, x ∈ updateFirst p f l →
      x ∈ l ∨ ∃ a, l.find? p = some a ∧ x = f a := by
  intro l
  induction l with
  | nil => intro x hx; simp [updateFirst] at hx
  | cons y ys ih =>
    intro x hx
    by_cases hy : p y
    · rw [updateFirst, if_pos hy] at hx
      rcases List.mem_cons.mp hx with h1 | h1
      · exact Or.inr ⟨y, by simp [List.find?_cons, hy], h1⟩
      · exact Or.inl (List.mem_cons_of_mem _ h1)
    · rw [updateFirst, if_neg hy] at hx
      rcases List.mem_cons.mp hx with h1 | h1
      · exact Or.inl (by simp [h1])
      · rcases ih h1 with h2 | ⟨a, ha, rfl⟩
        · exact Or.inl (List.mem_cons_of_mem _ h2)
        · exact Or.inr ⟨a, by simp [List.find?_cons, Bool.of_not_eq_true hy, ha], rfl⟩

theorem mem_updateFirst_of_nmatch {α : Type} {p : α → Bool} {f : α → α} :
    ∀ {l : List α} {x : α}, x ∈ l → p x = false → x ∈ updateFirst p f l := by
  intro l
  induction l with
  | nil => intro x hx; simp at hx
  | cons y ys ih =>
    intro x hx hpx
    rcases List.mem_cons.mp hx with rfl | hx
    · simp [updateFirst, hpx]
    · by_cases hy : p y
      · simp only [updateFirst, if_pos hy]
        exact List.mem_cons_of_mem _ hx
      · simp only [updateFirst, if_neg hy]
        exact List.mem_cons_of_mem _ (ih hx hpx)

theorem find?_updateFirst_preserve {α : Type} {p : α → Bool} {f : α → α}
    (hf : ∀ x, p (f x) = p x) :
    ∀ l : List α, (updateFirst p f l).find? p = (l.find? p).map f := by
  intro l
  induction l with
  | nil => rfl
  | cons y ys ih =>
    by_cases hy : p y
    · simp [updateFirst, if_pos hy, List.find?_cons, hf y, hy]
    · have hy' : p y = false := Bool.of_not_eq_true hy
      simp [updateFirst, if_neg hy, List.find?_cons, hy', ih]

theorem find?_updateFirst_disjoint {α : Type} {p q : α → Bool} {f : α → α} :
    ∀ {l : List α}, (∀ x ∈ l, p x = true → q x = false ∧ q (f x) = false) →
      (updateFirst p f l).find? q = l.find? q := by
  intro l
  induction l with
  | nil => intro _; rfl
  | cons y ys ih =>
    intro h
    by_cases hy : p y
    · obtain ⟨h1, h2⟩ := h y (by simp) hy
      simp [updateFirst, if_pos hy, List.find?_cons, h1, h2]
    · simp only [updateFirst, if_neg hy]
      rw [List.find?_cons, List.find?_cons]
      cases hq : q y with
      | true => rfl
      | false => exact ih (fun x hx => h x (List.mem_cons_of_mem _ hx))

theorem updateFirst_append_left {α : Type} {p : α → Bool} {f : α → α} :
    ∀ {l l2 : List α} {a : α}, l.find? p = some a →
      updateFirst p f (l ++ l2) = updateFirst p f l ++ l2 := by
  intro l
  induction l with
  | nil => intro l2 a h; simp at h
  | cons y ys ih =>
    intro l2 a h
    rw [List.find?_cons] at h
    cases hy : p y with
    | true => simp [updateFirst, hy]
    | false =>
      simp only [hy] at h
      simp [updateFirst, hy, ih h]

theorem find?_append_none {α : Type} {p : α → Bool} {l l2 : List α}
    (h : l.find? p = none) : (l ++ l2).find? p = l2.find? p := by
  induction l with
  | nil => simp
  | cons y ys ih =>
    rw [List.find?_cons] at h
    cases hy : p y with
    | true => simp [hy] at h
    | false =>
      simp only [hy] at h
      simp [List.find?_cons, hy, ih h]

theorem find?_append_some {α : Type} {p : α → Bool} {l l2 : List α} {a : α}
    (h : l.find? p = some a) : (l ++ l2).find? p = some a := by
  induction l with
  | nil => simp at h
  | cons y ys ih =>
    rw [List.find?_cons] at h
    cases hy : p y with
    | true => simpa [List.find?_cons, hy] using h
    | false =>
      simp only [hy] at h
      simp [List.find?_cons, hy, ih h]

/-! Projection lemmas: each store helper touches exactly one collection
(`create_bid` also bumps the job's bid count). -/

@[simp] theorem update_job_bids (st : Mkt) (i : String) (f : BazaarJob → BazaarJob) :
    (update_job st i f).bids = st.bids := rfl

@[simp] theorem update_job_agents (st : Mkt) (i : String) (f : BazaarJob → BazaarJob) :
    (update_job st i f).agents = st.agents := rfl

@[simp] theorem update_job_txns (st : Mkt) (i : String) (f : BazaarJob → BazaarJob) :
    (update_job st i f).txns = st.txns := rfl

@[simp] theorem update_bid_jobs (st : Mkt) (i : String) (f : BazaarBid → BazaarBid) :
    (update_bid st i f).jobs = st.jobs := rfl

@[simp] theorem update_bid_agents (st : Mkt) (i : String) (f : BazaarBid → BazaarBid) :
    (update_bid st i f).agents = st.agents := rfl

@[simp] theorem update_bid_txns (st : Mkt) (i : String) (f : BazaarBid → BazaarBid) :
    (update_bid st i f).txns = st.txns := rfl

@[simp] theorem update_agent_jobs (st : Mkt) (i : String) (f : BazaarAgent → BazaarAgent) :
    (update_agent st i f).jobs = st.jobs := rfl

@[simp] theorem update_agent_bids (st : Mkt) (i : String) (f : BazaarAgent → BazaarAgent) :
    (update_agent st i f).bids = st.bids := rfl

@[simp] theorem update_agent_txns (st : Mkt) (i : String) (f : BazaarAgent → BazaarAgent) :
    (update_agent st i f).txns = st.txns := rfl

@[simp] theorem update_transaction_jobs (st : Mkt) (i : String)
    (f : BazaarTransaction → BazaarTransaction) : (update_transaction st i f).jobs = st.jobs := rfl

@[simp] theorem update_transaction_bids (st : Mkt) (i : String)
    (f : BazaarTransaction → BazaarTransaction) : (update_transaction st i f).bids = st.bids := rfl

@[simp] theorem update_transaction_agents (st : Mkt) (i : String)
    (f : BazaarTransaction → BazaarTransaction) :
    (update_transaction st i f).agents = st.agents := rfl

@[simp] theorem create_bid_agents (st : Mkt) (b : BazaarBid) :
    (create_bid st b).agents = st.agents := rfl

@[simp] theorem create_bid_txns (st : Mkt) (b : BazaarBid) :
    (create_bid st b).txns = st.txns := rfl

@[simp] theorem create_bid_bids (st : Mkt) (b : BazaarBid) :
    (create_bid st b).bids = st.bids ++ [b] := rfl

@[simp] theorem create_transaction_jobs (st : Mkt) (t : BazaarTransaction) :
    (create_transaction st t).jobs = st.jobs := rfl

@[simp] theorem create_transaction_bids (st : Mkt) (t : BazaarTransaction) :
    (create_transaction st t).bids = st.bids := rfl

@[simp] theorem create_transaction_agents (st : Mkt) (t : BazaarTransaction) :
    (create_transaction st t).agents = st.agents := rfl

@[simp] theorem create_transaction_txns (st : Mkt) (t : BazaarTransaction) :
    (create_transaction st t).txns = st.txns ++ [t] := rfl

theorem update_bid_bids (st : Mkt) (i : String) (f : BazaarBid → BazaarBid) :
    (update_bid st i f).bids = updateFirst (fun b => b.bid_id == i) f st.bids := rfl

theorem update_transaction_txns (st : Mkt) (i : String)
    (f : BazaarTransaction → BazaarTransaction) :
    (update_transaction st i f).txns = updateFirst (fun t => t.txn_id == i) f st.txns := rfl

@[simp] theorem get_bid_update_job (st : Mkt) (i : String) (f : BazaarJob → BazaarJob)
    (b : String) : get_bid (update_job st i f) b = get_bid st b := rfl

@[simp] theorem get_bid_update_agent (st : Mkt) (i : String) (f : BazaarAgent → BazaarAgent)
    (b : String) : get_bid (update_agent st i f) b = get_bid st b := rfl

@[simp] theorem get_bid_update_transaction (st : Mkt) (i : String)
    (f : BazaarTransaction → BazaarTransaction) (b : String) :
    get_bid (update_transaction st i f) b = get_bid st b := rfl

@[simp] theorem get_job_update_bid (st : Mkt) (i : String) (f : BazaarBid → BazaarBid)
    (j : String) : get_job (update_bid st i f) j = get_job st j := rfl

@[simp] theorem get_job_update_agent (st : Mkt) (i : String) (f : BazaarAgent → BazaarAgent)
    (j : String) : get_job (update_agent st i f) j = get_job st j := rfl

@[simp] theorem get_job_update_transaction (st : Mkt) (i : String)
    (f : BazaarTransaction → BazaarTransaction) (j : String) :
    get_job (update_transaction st i f) j = get_job st j := rfl

@[simp] theorem get_job_create_transaction (st : Mkt) (t : BazaarTransaction) (j : String) :
    get_job (create_transaction st t) j = get_job st j := rfl

@[simp] theorem get_agent_update_job (st : Mkt) (i : String) (f : BazaarJob → BazaarJob)
    (a : String) : get_agent (update_job st i f) a = get_agent st a := rfl

@[simp] theorem get_agent_update_bid (st : Mkt) (i : String) (f : BazaarBid → BazaarBid)
    (a : String) : get_agent (update_bid st i f) a = get_agent st a := rfl

@[simp] theorem get_agent_update_transaction (st : Mkt) (i : String)
    (f : BazaarTransaction → BazaarTransaction) (a : String) :
    get_agent (update_transaction st i f) a = get_agent st a := rfl

@[simp] theorem get_agent_create_transaction (st : Mkt) (t : BazaarTransaction) (a : String) :
    get_agent (create_transaction st t) a = get_agent st a := rfl

@[simp] theorem get_transaction_update_job (st : Mkt) (i : String) (f : BazaarJob → BazaarJob)
    (t : String) : get_transaction (update_job st i f) t = get_transaction st t := rfl

@[simp] theorem get_transaction_update_bid (st : Mkt) (i : String) (f : BazaarBid → BazaarBid)
    (t : String) : get_transaction (update_bid st i f) t = get_transaction st t := rfl

@[simp] theorem get_transaction_update_agent (st : Mkt) (i : String)
    (f : BazaarAgent → BazaarAgent) (t : String) :
    get_transaction (update_agent st i f) t = get_transaction st t := rfl

@[simp] theorem get_bid_create_transaction (st : Mkt) (t : BazaarTransaction) (b : String) :
    get_bid (create_transaction st t) b = get_bid st b := rfl

/-- `get_bid` after `update_bid` on the same id rewrites the found bid. -/
theorem get_bid_update_bid_same (st : Mkt) (i : String) (f : BazaarBid → BazaarBid)
    (hf : ∀ b, (f b).bid_id = b.bid_id) :
    get_bid (update_bid st i f) i = (get_bid st i).map f := by
  unfold get_bid update_bid
  exact find?_updateFirst_preserve (fun b => by simp [hf b]) st.bids

/-- `get_transaction` after `update_transaction` on the same id rewrites the
found transaction. -/
theorem get_transaction_update_transaction_same (st : Mkt) (i : String)
    (f : BazaarTransaction → BazaarTransaction) (hf : ∀ t, (f t).txn_id = t.txn_id) :
    get_transaction (update_transaction st i f) i = (get_transaction st i).map f := by
  unfold get_transaction update_transaction
  exact find?_updateFirst_preserve (fun t => by simp [hf t]) st.txns

/-- `get_job` after `update_job` on the same id rewrites the found job. -/
theorem get_job_update_job_same (st : Mkt) (i : String) (f : BazaarJob → BazaarJob)
    (hf : ∀ j, (f j).job_id = j.job_id) :
    get_job (update_job st i f) i = (get_job st i).map f := by
  unfold get_job update_job
  exact find?_updateFirst_preserve (fun j => by simp [hf j]) st.jobs

/-- `get_agent` after `update_agent` on the same id rewrites the found agent. -/
theorem get_agent_update_agent_same (st : Mkt) (i : String)
    (f : BazaarAgent → BazaarAgent) (hf : ∀ a, (f a).agent_id = a.agent_id) :
    get_agent (update_agent st i f) i = (get_agent st i).map f := by
  unfold get_agent update_agent
  exact find?_updateFirst_preserve (fun a => by simp [hf a]) st.agents

/-! Concrete fixtures used by counterexamples and witnesses. -/

/-- A default bid record; fixtures override the fields they care about. -/
def baseBid : BazaarBid :=
  { bid_id := "b1", job_id := "j1", agent_id := "a1", price_usd := 5,
    estimated_time_seconds := 60, confidence := 9/10, approach := "plan",
    counter_offers := [], final_price_usd := none, requires_approval := false,
    approval_reason := none, approved_by := none, status := .pending }

/-- A default job record. -/
def baseJob : BazaarJob :=
  { job_id := "j1", poster_id := "p1", status := .open_, budget_usd := 20,
    required_capabilities := [], min_capability_score := 7/10,
    deadline_minutes := 10, bid_deadline := none, bid_count := 0,
    escrow_txn_id := none, winning_bid_id := none, assigned_agent_id := none,
    final_price_usd := none, quality_score := none }

/-- A default agent record. -/
def baseAgent : BazaarAgent :=
  { agent_id := "a1", capabilities := [], rating_avg := 0, rating_count := 0,
    jobs_completed := 0, jobs_failed := 0, total_earned_usd := 0,
    status := .available }

/-- A default (escrow) transaction record. -/
def baseEscrow : BazaarTransaction :=
  { txn_id := "e1", txn_type := .escrow, job_id := "j1", bid_id := none,
    payer_id := "p1", payee_id := none, amount_usd := 10, status := .escrowed }

/-! ### C10 — `reject_bid` succeeds from any status -/

/-- C10: for every existing Bid, whatever its current status (including the
terminal statuses `accepted` and `withdrawn`), `reject_bid` succeeds and sets
the Bid's status to `rejected`. -/
theorem C10_reject_bid_any_status (st : Mkt) (bid_id rejector reason : String)
    (b : BazaarBid) (hb : get_bid st bid_id = some b) :
    ∃ st', reject_bid st bid_id rejector reason = .ok st' ∧
      get_bid st' bid_id = some { b with status := .rejected } := by
  refine ⟨update_bid st bid_id (fun x => { x with status := .rejected }), ?_, ?_⟩
  · rw [reject_bid, hb]
  · rw [get_bid_update_bid_same st bid_id (fun x => { x with status := .rejected })
      (fun x => rfl), hb]
    rfl

/-- The C10 witness store: one bid already in the terminal status `accepted`. -/
def c10St : Mkt :=
  { jobs := [], bids := [{ baseBid with status := .accepted }], agents := [], txns := [] }

/-- C10 witness: a bid already in the terminal status `accepted` is still
moved to `rejected`. -/
theorem C10_witness :
    ∃ st', reject_bid c10St "b1" "p1" "changed my mind" = .ok st' ∧
      get_bid st' "b1" = some { baseBid with status := .rejected } :=
  C10_reject_bid_any_status c10St "b1" "p1" "changed my mind"
    { baseBid with status := .accepted } (by rfl)

/-! ### C6 — negotiation round limit -/

/-- One negotiation round at the given price. -/
def mkCounter (p : ℚ) : CounterOffer := { price_usd := p, message := "round", by_ := "poster" }

/-- A bid that already has `MAX_COUNTER_OFFERS` rounds but sits in the
non-negotiable status `rejected`. -/
def c6Bid : BazaarBid :=
  { baseBid with
    status := .rejected,
    counter_offers := [mkCounter 5, mkCounter 4, mkCounter 5, mkCounter 4, mkCounter 5] }

/-- The C6 counterexample store. -/
def c6St : Mkt := { jobs := [], bids := [c6Bid], agents := [], txns := [] }

/-- C6 counterexample: a Bid with 5 counter-offers whose status is `rejected`
makes `make_counter_offer` fail with the not-open-for-negotiation error, not
with `NegotiationLimitExceeded` — the status guard fires first, so the claim
"every Bid with ≥ 5 counter-offers fails with NegotiationLimitExceeded" is
false at this input. -/
theorem C6_counterexample :
    c6Bid.counter_offers.length = MAX_COUNTER_OFFERS ∧
    make_counter_offer c6St "b1" 3 "again" "poster" = .error .notOpenForNegotiation ∧
    Err.notOpenForNegotiation ≠ Err.negotiationLimit := by
  refine ⟨by decide, by rfl, by decide⟩

/-- `get_bid` after an id-preserving `update_bid` over a bid known to be
found. -/
theorem get_bid_update_bid_applied (st : Mkt) (i : String) (f : BazaarBid → BazaarBid)
    (b : BazaarBid) (hf : ∀ x, (f x).bid_id = x.bid_id) (hb : get_bid st i = some b) :
    get_bid (update_bid st i f) i = some (f b) := by
  rw [get_bid_update_bid_same st i f hf, hb]
  rfl

/-- C6 amended: the round limit applies to bids in a negotiable status
(`pending`, `counter_offered`, `counter_accepted`): such a bid with ≥ 5
counter-offers fails with `NegotiationLimitExceeded` and nothing is appended;
a negotiable bid with < 5 counter-offers gets exactly one entry appended; a
bid in any other status fails with the invalid-state error whatever its
round count. -/
theorem C6_round_limit (st : Mkt) (bid_id : String) (b : BazaarBid)
    (new_price : ℚ) (msg who : String) (hb : get_bid st bid_id = some b) :
    (negotiable b.status = false →
      make_counter_offer st bid_id new_price msg who = .error .notOpenForNegotiation) ∧
    (negotiable b.status = true → MAX_COUNTER_OFFERS ≤ b.counter_offers.length →
      make_counter_offer st bid_id new_price msg who = .error .negotiationLimit) ∧
    (negotiable b.status = true → b.counter_offers.length < MAX_COUNTER_OFFERS →
      ∃ st', make_counter_offer st bid_id new_price msg who = .ok st' ∧
        ∃ b', get_bid st' bid_id = some b' ∧
          b'.counter_offers =
            b.counter_offers ++ [{ price_usd := new_price, message := msg, by_ := who }]) := by
  refine ⟨?_, ?_, ?_⟩
  · intro hneg
    simp only [make_counter_offer, hb]
    rw [if_pos (by simp [hneg])]
  · intro hneg hlen
    simp only [make_counter_offer, hb]
    rw [if_neg (fun hC => hC hneg), if_pos hlen]
  · intro hneg hlen
    simp only [make_counter_offer, hb]
    rw [if_neg (fun hC => hC hneg), if_neg (not_le.mpr hlen)]
    split
    · refine ⟨_, rfl, ?_⟩
      rw [get_bid_update_job, get_bid_update_bid_same st bid_id, hb]
      · exact ⟨_, rfl, rfl⟩
      · intro x; rfl
    · refine ⟨_, rfl, ?_⟩
      rw [get_bid_update_bid_same st bid_id, hb]
      · exact ⟨_, rfl, rfl⟩
      · intro x; rfl

/-- A store with one freshly submitted (pending, zero-round) bid. -/
def c6PendSt : Mkt := { jobs := [], bids := [baseBid], agents := [], txns := [] }

/-- C6 witness: a pending bid with no counter-offers accepts a new
counter-offer, which is appended as the single new entry. -/
theorem C6_witness :
    ∃ st', make_counter_offer c6PendSt "b1" 3 "meet in the middle" "poster" = .ok st' ∧
      ∃ b', get_bid st' "b1" = some b' ∧
        b'.counter_offers = baseBid.counter_offers ++
          [{ price_usd := 3, message := "meet in the middle", by_ := "poster" }] :=
  (C6_round_limit c6PendSt "b1" baseBid 3 "meet in the middle" "poster" (by rfl)).2.2
    (by decide) (by decide)

/-! ### C8 — immutability of `final_price_usd` -/

/-- The C8 counterexample store: a pending bid, no job record. -/
def c8St : Mkt := { jobs := [], bids := [baseBid], agents := [], txns := [] }

/-- Negotiate to 4 and accept. -/
def c8T1 : List Op :=
  [.makeCounterOffer "b1" 4 "r1" "poster", .acceptCounterOffer "b1" "agent"]

/-- Then negotiate again to 3 and accept again. -/
def c8T2 : List Op :=
  c8T1 ++ [.makeCounterOffer "b1" 3 "r2" "poster", .acceptCounterOffer "b1" "agent"]

/-- C8 counterexample: `accept_counter_offer` sets `final_price_usd := 4`;
a further counter-offer (legal from `counter_accepted`) and a second
`accept_counter_offer` overwrite it with 3 — so a set `final_price` is not
immutable under the claim's own operation set. -/
theorem C8_counterexample :
    (get_bid (run c8St c8T1) "b1").map (fun b => b.final_price_usd) = some (some 4) ∧
    (get_bid (run c8St c8T2) "b1").map (fun b => b.final_price_usd) = some (some 3) ∧
    (4 : ℚ) ≠ 3 := by
  refine ⟨by rfl, by rfl, by decide⟩

/-- C8 amended: `make_counter_offer` never touches a set `final_price_usd`,
and `approve_bid` and `select_winning_bid` preserve it whenever it is
nonzero (they recompute it as `final_price_usd or price_usd`, so a zero
value falls back to the bid price); but `accept_counter_offer` after a
further round overwrites it, as the counterexample shows. -/
theorem C8_final_price_stable (st : Mkt) (bid_id : String) (b : BazaarBid) (v : ℚ)
    (hb : get_bid st bid_id = some b) (hv : b.final_price_usd = some v) :
    (∀ pr m w st', make_counter_offer st bid_id pr m w = .ok st' →
      ∃ b', get_bid st' bid_id = some b' ∧ b'.final_price_usd = some v) ∧
    (v ≠ 0 → ∀ ap st', approve_bid st bid_id ap = .ok st' →
      ∃ b', get_bid st' bid_id = some b' ∧ b'.final_price_usd = some v) ∧
    (v ≠ 0 → ∀ jid st', select_winning_bid st jid bid_id = .ok st' →
      ∃ b', get_bid st' bid_id = some b' ∧ b'.final_price_usd = some v) := by
  refine ⟨?_, ?_, ?_⟩
  · intro pr m w st' h
    simp only [make_counter_offer, hb] at h
    split at h
    · exact absurd h (by simp)
    · split at h
      · exact absurd h (by simp)
      · split at h <;> rename_i hj <;> rw [Except.ok.injEq] at h <;> subst h
        · rw [get_bid_update_job, get_bid_update_bid_same st bid_id, hb]
          · exact ⟨_, rfl, hv⟩
          · intro x; rfl
        · rw [get_bid_update_bid_same st bid_id, hb]
          · exact ⟨_, rfl, hv⟩
          · intro x; rfl
  · intro hv0 ap st' h
    simp only [approve_bid, hb] at h
    split at h
    · exact absurd h (by simp)
    · rw [Except.ok.injEq] at h
      subst h
      rw [get_bid_update_job, get_bid_update_bid_same st bid_id, hb]
      · refine ⟨_, rfl, ?_⟩
        show some (orFalsy b.final_price_usd b.price_usd) = some v
        rw [hv]
        simp [orFalsy, hv0]
      · intro x; rfl
  · intro hv0 jid st' h
    simp only [select_winning_bid, hb] at h
    split at h
    · exact absurd h (by simp)
    · split at h
      · exact absurd h (by simp)
      · rw [Except.ok.injEq] at h
        subst h
        rw [get_bid_update_job, get_bid_update_bid_same st bid_id, hb]
        · refine ⟨_, rfl, ?_⟩
          show some (orFalsy b.final_price_usd b.price_usd) = some v
          rw [hv]
          simp [orFalsy, hv0]
        · intro x; rfl

/-- The C8 witness bid: negotiated once, `final_price_usd` already set to 4. -/
def c8WBid : BazaarBid :=
  { baseBid with
    status := .counter_accepted,
    counter_offers := [mkCounter 4],
    final_price_usd := some 4 }

/-- The C8 witness store. -/
def c8WSt : Mkt := { jobs := [], bids := [c8WBid], agents := [], txns := [] }

/-- The state after one more counter-offer on the witness store. -/
def c8WRes : Mkt :=
  ((make_counter_offer c8WSt "b1" 2 "lower" "poster").toOption).getD c8WSt

/-- C8 witness: a further counter-offer on the witness bid leaves its set
`final_price_usd = 4` untouched. -/
theorem C8_witness :
    ∃ b', get_bid c8WRes "b1" = some b' ∧ b'.final_price_usd = some 4 :=
  (C8_final_price_stable c8WSt "b1" c8WBid 4 (by rfl) (by rfl)).1 2 "lower" "poster"
    c8WRes (by rfl)

/-! ### C7 — the ranking score formula -/

/-- rank.py price-fit component: `max(0, 1 - price/budget)`. -/
def price_fit (bid : BazaarBid) (job : BazaarJob) : ℚ :=
  max 0 (1 - bid.price_usd / job.budget_usd)

/-- rank.py speed-fit component: `max(0, 1 - estimated/deadline_seconds)`. -/
def speed_fit (bid : BazaarBid) (job : BazaarJob) : ℚ :=
  max 0 (1 - bid.estimated_time_seconds / (job.deadline_minutes * 60))

/-- rank.py capability-match component: mean declared score over the required
capabilities, `0.8` when none are required. -/
def capability_match (agent : BazaarAgent) (job : BazaarJob) : ℚ :=
  if job.required_capabilities.length ≠ 0 then
    (job.required_capabilities.map (lookupCap agent.capabilities)).sum /
      (job.required_capabilities.length : ℚ)
  else 0.8

/-- Modelled from the spec (for comparison with rank.py, which has no such
term): success rate `completed/(completed+failed)`, `0.5` with no history. -/
def claimed_success_rate (agent : BazaarAgent) : ℚ :=
  if 0 < agent.jobs_completed + agent.jobs_failed then
    (agent.jobs_completed : ℚ) / ((agent.jobs_completed : ℚ) + (agent.jobs_failed : ℚ))
  else 1/2

/-- Modelled from the spec: reputation `0.6·(rating/5) + 0.4·success_rate`. -/
def claimed_reputation (agent : BazaarAgent) : ℚ :=
  0.6 * (agent.rating_avg / 5) + 0.4 * claimed_success_rate agent

/-- Modelled from the spec: the weighted sum the claim states for the ranking
score, with the blended reputation term. -/
def claimed_bid_score (bid : BazaarBid) (agent : BazaarAgent) (job : BazaarJob) : ℚ :=
  0.30 * price_fit bid job + 0.25 * bid.confidence + 0.20 * claimed_reputation agent +
    0.15 * speed_fit bid job + 0.10 * capability_match agent job

/-- C7 counterexample bid: at-budget price, zero confidence, estimate equal to
the deadline. -/
def c7Bid : BazaarBid :=
  { baseBid with
    price_usd := 1,
    confidence := 0,
    estimated_time_seconds := 600 }

/-- C7 counterexample job: budget 1, ten-minute deadline, no capabilities. -/
def c7Job : BazaarJob := { baseJob with budget_usd := 1 }

/-- C7 counterexample: for a fresh agent (no rating, no history) the code's
score is 0.08 (only the 0.8-capability default contributes), but the claim's
formula gives 0.12, because its reputation term contributes
`0.20 × 0.4 × 0.5` for a no-history agent while rank.py's reputation
component is `rating/5` alone. -/
theorem C7_counterexample :
    c7Bid.status = .pending ∧
    calculate_bid_score c7Bid baseAgent c7Job = 2/25 ∧
    claimed_bid_score c7Bid baseAgent c7Job = 3/25 ∧
    (2/25 : ℚ) ≠ 3/25 := by
  refine ⟨rfl, ?_, ?_, by norm_num⟩
  · norm_num [calculate_bid_score, roundTo3, roundHalfEven, lookupCap, c7Bid, c7Job,
      baseAgent, baseBid, baseJob, max_def, Int.fract]
  · norm_num [claimed_bid_score, claimed_reputation, claimed_success_rate, price_fit,
      speed_fit, capability_match, lookupCap, c7Bid, c7Job, baseAgent, baseBid, baseJob,
      max_def]

/-- C7 amended: the score of a pending bid is the weighted sum with weights
30/25/20/15/10, rounded half-to-even at three decimals, where the reputation
component is `rating_avg/5` alone — there is no success-rate term. -/
theorem C7_score_formula (bid : BazaarBid) (agent : BazaarAgent) (job : BazaarJob)
    (hp : bid.status = .pending) (hb : 0 < job.budget_usd) (hd : 0 < job.deadline_minutes) :
    calculate_bid_score bid agent job =
      roundTo3 (0.30 * price_fit bid job + 0.25 * bid.confidence +
        0.20 * (agent.rating_avg / 5) + 0.15 * speed_fit bid job +
        0.10 * capability_match agent job) := by
  unfold calculate_bid_score price_fit speed_fit capability_match
  ring_nf

/-- C7 witness: the formula evaluated on the base fixtures. -/
theorem C7_witness :
    calculate_bid_score baseBid baseAgent baseJob =
      roundTo3 (0.30 * price_fit baseBid baseJob + 0.25 * baseBid.confidence +
        0.20 * (baseAgent.rating_avg / 5) + 0.15 * speed_fit baseBid baseJob +
        0.10 * capability_match baseAgent baseJob) :=
  C7_score_formula baseBid baseAgent baseJob (by rfl) (by decide) (by decide)

/-! ### C5 / C9 — a released escrow is frozen -/

/-- From a successful `release_payment`: the escrow existed in `escrowed`
status, and afterwards it is stored with status `released`. -/
theorem release_payment_ok_facts (st : Mkt) (gw : Bool) (eid payee : String)
    (amt : Option ℚ) (tid : String) (st' : Mkt)
    (h : release_payment st gw eid payee amt tid = .ok st') :
    ∃ e, get_transaction st eid = some e ∧ e.status = .escrowed ∧
      get_transaction st' eid = some { e with status := .released } := by
  simp only [release_payment] at h
  split at h
  · exact absurd h (by simp)
  · rename_i e hget
    split at h
    · exact absurd h (by simp)
    · rename_i hst
      split at h
      · exact absurd h (by simp)
      · refine ⟨e, hget, not_not.mp hst, ?_⟩
        split at h <;> rw [Except.ok.injEq] at h <;> subst h
        · rw [get_transaction_update_agent, get_transaction_update_transaction_same]
          · unfold get_transaction at hget ⊢
            rw [create_transaction_txns, find?_append_some hget]
            rfl
          · intro t; rfl
        · rw [get_transaction_update_transaction_same]
          · unfold get_transaction at hget ⊢
            rw [create_transaction_txns, find?_append_some hget]
            rfl
          · intro t; rfl

/-- C5: once a release has succeeded on an escrow, every further
`release_payment` on that escrow fails with the escrow-not-active error and
leaves the store (so also every agent's earnings) unchanged — the status
flip to `released` happens before any second disbursement could be written. -/
theorem C5_release_idempotent (st st' : Mkt) (gw : Bool) (eid payee : String)
    (amt : Option ℚ) (tid : String)
    (h : release_payment st gw eid payee amt tid = .ok st') :
    ∀ gw2 payee2 amt2 tid2,
      release_payment st' gw2 eid payee2 amt2 tid2 = .error .escrowNotActive ∧
      applyOp st' (.releasePayment gw2 eid payee2 amt2 tid2) = st' := by
  obtain ⟨e, hget, hesc, hafter⟩ :=
    release_payment_ok_facts st gw eid payee amt tid st' h
  intro gw2 payee2 amt2 tid2
  have herr : release_payment st' gw2 eid payee2 amt2 tid2 = .error .escrowNotActive := by
    simp only [release_payment, hafter]
    rw [if_pos (by simp)]
  exact ⟨herr, by simp [applyOp, herr, Except.toOption]⟩

/-- The C5 witness store: one live escrow and its agent. -/
def c5St : Mkt := { jobs := [], bids := [], agents := [baseAgent], txns := [baseEscrow] }

/-- The C5 witness store after the first (successful) release. -/
def c5Res : Mkt :=
  ((release_payment c5St true "e1" "a1" (some 4) "t1").toOption).getD c5St

/-- C5 witness: repeating the disbursement with the same arguments after the
first success fails and changes nothing. -/
theorem C5_witness :
    release_payment c5Res true "e1" "a1" (some 4) "t2" = .error .escrowNotActive ∧
    applyOp c5Res (.releasePayment true "e1" "a1" (some 4) "t2") = c5Res :=
  C5_release_idempotent c5St c5Res true "e1" "a1" (some 4) "t1" (by rfl)
    true "a1" (some 4) "t2"

/-- C9: after any successful `release_payment` — including a 50% partial
settlement — the escrow's stored status is `released`; from then on every
`release_payment` on it raises the escrow-not-active error and every
`refund_payment` returns `None` with the store unchanged, so the undisbursed
remainder can never be refunded through these operations. -/
theorem C9_released_escrow_frozen (st st' : Mkt) (gw : Bool) (eid payee : String)
    (amt : Option ℚ) (tid : String)
    (h : release_payment st gw eid payee amt tid = .ok st') :
    (∃ cur, get_transaction st' eid = some cur ∧ cur.status = .released) ∧
    (∀ gw2 payee2 amt2 tid2,
      release_payment st' gw2 eid payee2 amt2 tid2 = .error .escrowNotActive) ∧
    (∀ gw3 tid3, refund_payment st' gw3 eid tid3 = (none, st')) := by
  obtain ⟨e, hget, hesc, hafter⟩ :=
    release_payment_ok_facts st gw eid payee amt tid st' h
  refine ⟨⟨_, hafter, rfl⟩, ?_, ?_⟩
  · intro gw2 payee2 amt2 tid2
    simp only [release_payment, hafter]
    rw [if_pos (by simp)]
  · intro gw3 tid3
    simp only [refund_payment, hafter]
    rw [if_pos (by simp)]

/-- The C9 witness store: a 10-unit escrow; the first release settles 50%. -/
def c9St : Mkt := { jobs := [], bids := [], agents := [baseAgent], txns := [baseEscrow] }

/-- The C9 witness store after a 50% (5 of 10) release. -/
def c9Res : Mkt :=
  ((release_payment c9St true "e1" "a1" (some 5) "t1").toOption).getD c9St

/-- C9 witness: after the 5-of-10 release, the escrow is `released`, a second
release errors, and a refund of the 5-unit remainder returns `None`. -/
theorem C9_witness :
    (∃ cur, get_transaction c9Res "e1" = some cur ∧ cur.status = .released) ∧
    (∀ gw2 payee2 amt2 tid2,
      release_payment c9Res gw2 "e1" payee2 amt2 tid2 = .error .escrowNotActive) ∧
    (∀ gw3 tid3, refund_payment c9Res gw3 "e1" tid3 = (none, c9Res)) :=
  C9_released_escrow_frozen c9St c9Res true "e1" "a1" (some 5) "t1" (by rfl)

/-! ### C3 — the `reject` review decision -/

/-- The C3 job: assigned, under review, escrowed. -/
def c3Job : BazaarJob :=
  { baseJob with
    status := .pending_review,
    escrow_txn_id := some "e1",
    assigned_agent_id := some "a1",
    winning_bid_id := some "b1",
    final_price_usd := some 4 }

/-- The C3 store. -/
def c3St : Mkt := { jobs := [c3Job], bids := [], agents := [baseAgent], txns := [baseEscrow] }

/-- The store after a `reject` review of the C3 job. -/
def c3Res : Mkt :=
  ((submit_human_review c3St true "j1" .reject 1 "reviewer" "t9").toOption).getD c3St

/-- C3 counterexample: after a `reject` review the job's status is
`completed`, not `disputed` — the handler writes `completed` for every
decision before branching on it. -/
theorem C3_counterexample :
    (get_job c3Res "j1").map (fun j => j.status) = some .completed ∧
    JobStatus.completed ≠ JobStatus.disputed :=
  ⟨by rfl, by decide⟩

/-- C3 amended: for a `pending_review` job with a live escrow, an assigned
agent and a working gateway, the `reject` decision refunds the full escrow
amount to the poster, increments the agent's failed-count, leaves earnings
and completed-count unchanged — but sets the job's status to `completed`
(with `quality_score := rating`), not to `disputed`. -/
theorem C3_reject_review (st : Mkt) (job_id eid aid reviewer tid : String) (rating : ℚ)
    (job : BazaarJob) (esc : BazaarTransaction) (a0 : BazaarAgent)
    (hj : get_job st job_id = some job)
    (hstat : job.status = .pending_review)
    (hrating : 0 ≤ rating ∧ rating ≤ 1)
    (hesc : job.escrow_txn_id = some eid)
    (he : get_transaction st eid = some esc)
    (hescst : esc.status = .escrowed)
    (haid : job.assigned_agent_id = some aid)
    (ha : get_agent st aid = some a0) :
    ∃ st', submit_human_review st true job_id .reject rating reviewer tid = .ok st' ∧
      ({ txn_id := tid, txn_type := .refund, job_id := esc.job_id, bid_id := none,
         payer_id := esc.payer_id, payee_id := some esc.payer_id,
         amount_usd := esc.amount_usd, status := .refunded } : BazaarTransaction) ∈ st'.txns ∧
      (get_job st' job_id).map (fun j => (j.status, j.quality_score)) =
        some (.completed, some rating) ∧
      (get_agent st' aid).map (fun a => (a.jobs_failed, a.total_earned_usd, a.jobs_completed)) =
        some (a0.jobs_failed + 1, a0.total_earned_usd, a0.jobs_completed) := by
  have hfind : st.txns.find? (fun t => t.txn_id == eid) = some esc := he
  simp only [submit_human_review, hj]
  rw [if_neg (fun hc => hc hstat), if_neg (not_not_intro hrating)]
  simp only [haid, hesc, get_agent_update_job, ha]
  simp only [refund_payment, get_transaction_update_job, he]
  rw [if_neg (fun hc => hc hescst)]
  simp only [Bool.not_true, Bool.false_eq_true, if_false, apply_review_rating]
  rw [if_neg (fun hc => hc trivial)]
  refine ⟨_, rfl, ?_, ?_, ?_⟩
  · simp only [update_agent_txns, update_transaction_txns, create_transaction_txns,
      update_job_txns]
    rw [updateFirst_append_left hfind]
    exact List.mem_append_right _ (by simp)
  · simp only [get_job_update_agent, get_job_update_transaction, get_job_create_transaction]
    rw [get_job_update_job_same]
    · rw [hj]; rfl
    · intro j; rfl
  · have haeq : a0.agent_id = aid := by
      have h1 := List.find?_some ha
      simpa using h1
    rw [haeq, get_agent_update_agent_same]
    · rw [get_agent_update_agent_same]
      · simp only [get_agent_update_transaction, get_agent_create_transaction,
          get_agent_update_job, ha]
        rfl
      · intro a; rfl
    · intro a; rfl

/-- C3 witness: the amended reject behaviour on the concrete C3 store. -/
theorem C3_witness :
    ∃ st', submit_human_review c3St true "j1" .reject 1 "reviewer" "t9" = .ok st' ∧
      ({ txn_id := "t9", txn_type := .refund, job_id := baseEscrow.job_id, bid_id := none,
         payer_id := baseEscrow.payer_id, payee_id := some baseEscrow.payer_id,
         amount_usd := baseEscrow.amount_usd, status := .refunded } : BazaarTransaction) ∈
        st'.txns ∧
      (get_job st' "j1").map (fun j => (j.status, j.quality_score)) =
        some (.completed, some 1) ∧
      (get_agent st' "a1").map (fun a => (a.jobs_failed, a.total_earned_usd, a.jobs_completed)) =
        some (baseAgent.jobs_failed + 1, baseAgent.total_earned_usd, baseAgent.jobs_completed) :=
  C3_reject_review c3St "j1" "e1" "a1" "reviewer" "t9" 1 c3Job baseEscrow baseAgent
    (by rfl) (by rfl) (by decide) (by rfl) (by rfl) (by rfl) (by rfl) (by rfl)

/-! ### C4 — the assign operation (`accept_bid`) -/

theorem find?_map_preserve {α : Type} {p : α → Bool} {g : α → α}
    (h : ∀ x, p (g x) = p x) :
    ∀ l : List α, (l.map g).find? p = (l.find? p).map g := by
  intro l
  induction l with
  | nil => rfl
  | cons y ys ih =>
    cases hy : p y with
    | true => simp [List.find?_cons, h y, hy]
    | false => simp [List.find?_cons, h y, hy, ih]

theorem updateFirst_length {α : Type} (p : α → Bool) (f : α → α) :
    ∀ l : List α, (updateFirst p f l).length = l.length := by
  intro l
  induction l with
  | nil => rfl
  | cons x xs ih => by_cases hx : p x <;> simp [updateFirst, hx, ih]

/-- The preconditions under which accept.py `accept_bid` succeeds. -/
def AcceptPre (st : Mkt) (job_id bid_id poster_id : String) : Prop :=
  ∃ j, get_job st job_id = some j ∧ j.poster_id = poster_id ∧
    (j.status = .open_ ∨ j.status = .bidding) ∧
    ∃ b, get_bid st bid_id = some b ∧ b.job_id = job_id ∧ b.status = .pending

/-- C4 amended: `accept_bid` succeeds exactly when the caller is the poster,
the Job is in `{open, bidding}` (not `negotiating`), and the Bid is a
`pending` bid of that job (not `counter_accepted`, not approved); on failure
it raises and mutates nothing; on success it marks the winning bid
`accepted` (leaving its `final_price_usd` unchanged), moves the job to
`assigned` recording `winning_bid_id` and `assigned_agent_id` but not
`final_price_usd`, and rejects exactly the other still-`pending` bids of the
job: each of those is marked `rejected`, while every other bid — non-pending
bids of the job and bids of other jobs — is carried over untouched, the bid
list keeping its length. -/
theorem C4_accept_bid_spec (st : Mkt) (job_id bid_id poster_id : String) :
    ((∃ st', accept_bid st job_id bid_id poster_id = .ok st') ↔
      AcceptPre st job_id bid_id poster_id) ∧
    (¬ AcceptPre st job_id bid_id poster_id →
      applyOp st (.acceptBid job_id bid_id poster_id) = st) ∧
    (∀ st' j b, accept_bid st job_id bid_id poster_id = .ok st' →
      get_job st job_id = some j → get_bid st bid_id = some b →
      ((get_bid st' bid_id).map (fun x => (x.status, x.final_price_usd)) =
        some (.accepted, b.final_price_usd)) ∧
      ((get_job st' job_id).map (fun x =>
        (x.status, x.winning_bid_id, x.assigned_agent_id, x.final_price_usd)) =
        some (.assigned, some bid_id, some b.agent_id, j.final_price_usd)) ∧
      (∀ ob ∈ st.bids, ob.job_id = job_id → ob.bid_id ≠ bid_id → ob.status = .pending →
        { ob with status := BidStatus.rejected } ∈ st'.bids) ∧
      (∀ ob ∈ st.bids, ob.bid_id ≠ bid_id → ¬ (ob.job_id = job_id ∧ ob.status = .pending) →
        ob ∈ st'.bids) ∧
      st'.bids.length = st.bids.length) := by
  have hiff : (∃ st', accept_bid st job_id bid_id poster_id = .ok st') ↔
      AcceptPre st job_id bid_id poster_id := by
    constructor
    · rintro ⟨st', h⟩
      simp only [accept_bid] at h
      split at h
      · exact absurd h (by simp)
      · rename_i j hj
        split at h
        · exact absurd h (by simp)
        · rename_i hposter
          split at h
          · exact absurd h (by simp)
          · rename_i hjstat
            split at h
            · exact absurd h (by simp)
            · rename_i b hb
              split at h
              · exact absurd h (by simp)
              · rename_i hbjob
                split at h
                · exact absurd h (by simp)
                · rename_i hbstat
                  refine ⟨j, hj, not_not.mp hposter, ?_, b, hb, not_not.mp hbjob,
                    not_not.mp hbstat⟩
                  have := not_not.mp hjstat
                  simpa using this
    · rintro ⟨j, hj, hposter, hjstat, b, hb, hbjob, hbstat⟩
      simp only [accept_bid, hj, hb]
      rw [if_neg (not_not_intro hposter)]
      rw [if_neg (not_not_intro (by simp [hjstat] : (j.status == JobStatus.open_ ||
        j.status == JobStatus.bidding) = true))]
      rw [if_neg (not_not_intro hbjob), if_neg (not_not_intro hbstat)]
      exact ⟨_, rfl⟩
  refine ⟨hiff, ?_, ?_⟩
  · intro hpre
    have herr : ∀ st', accept_bid st job_id bid_id poster_id ≠ .ok st' := by
      intro st' hok
      exact hpre (hiff.mp ⟨st', hok⟩)
    cases hres : accept_bid st job_id bid_id poster_id with
    | ok st' => exact absurd hres (herr st')
    | error e => simp [applyOp, hres, Except.toOption]
  · intro st' j b h hj hb
    have hbid_eq : b.bid_id = bid_id := by
      have h1 := List.find?_some hb
      simpa using h1
    simp only [accept_bid, hj, hb] at h
    split at h
    · exact absurd h (by simp)
    · split at h
      · exact absurd h (by simp)
      · split at h
        · exact absurd h (by simp)
        · split at h
          · exact absurd h (by simp)
          · rw [Except.ok.injEq] at h
            subst h
            refine ⟨?_, ?_, ?_, ?_, ?_⟩
            · simp only [get_bid_update_agent, get_bid_update_job]
              unfold get_bid
              simp only [update_bid_bids]
              rw [find?_map_preserve]
              · rw [find?_updateFirst_preserve]
                · unfold get_bid at hb
                  rw [hb]
                  simp [hbid_eq]
                · intro x; rfl
              · intro x
                split <;> rfl
            · simp only [get_job_update_agent]
              rw [get_job_update_job_same]
              · unfold get_job
                simp only [update_bid_jobs]
                unfold get_job at hj
                rw [hj]
                rfl
              · intro x; rfl
            · intro ob hob hobjob hobbid hobstat
              simp only [update_agent_bids, update_job_bids]
              have hpob : (fun x => x.bid_id == bid_id) ob = false := by
                simp [hobbid]
              have hmem : ob ∈ updateFirst (fun x => x.bid_id == bid_id)
                  (fun x => { x with status := BidStatus.accepted }) st.bids :=
                mem_updateFirst_of_nmatch hob hpob
              refine List.mem_map.mpr ⟨ob, hmem, ?_⟩
              rw [if_pos]
              simp [hobjob, hobstat, bne_iff_ne, hobbid]
            · intro ob hob hobne hobnp
              simp only [update_agent_bids, update_job_bids]
              have hpob : (fun x => x.bid_id == bid_id) ob = false := by
                simp [hobne]
              have hmem : ob ∈ updateFirst (fun x => x.bid_id == bid_id)
                  (fun x => { x with status := BidStatus.accepted }) st.bids :=
                mem_updateFirst_of_nmatch hob hpob
              refine List.mem_map.mpr ⟨ob, hmem, ?_⟩
              have hcond : (ob.job_id == job_id && ob.bid_id != bid_id &&
                  ob.status == BidStatus.pending) = false := by
                by_cases hA : ob.job_id = job_id
                · have hB : ob.status ≠ .pending := fun hs => hobnp ⟨hA, hs⟩
                  simp [hB]
                · simp [hA]
              simp [hcond]
            · simp only [update_agent_bids, update_job_bids]
              rw [List.length_map]
              exact updateFirst_length _ _ st.bids

/-- The C4 counterexample job: a `negotiating` job. -/
def c4Job : BazaarJob := { baseJob with status := .negotiating }

/-- The C4 counterexample store: a negotiating job with a pending bid. -/
def c4St : Mkt := { jobs := [c4Job], bids := [baseBid], agents := [baseAgent], txns := [] }

/-- C4 counterexample: the claim allows assignment while the Job is
`negotiating` (and for `counter_accepted`/`approved` bids), but `accept_bid`
only accepts jobs in `{open, bidding}`: on a negotiating job with a pending
bid it fails. -/
theorem C4_counterexample :
    c4Job.status = .negotiating ∧ baseBid.status = .pending ∧
    accept_bid c4St "j1" "b1" "p1" = .error .jobNotAcceptingBids :=
  ⟨rfl, rfl, by rfl⟩

/-- A second pending bid on the same job. -/
def c4OtherBid : BazaarBid := { baseBid with bid_id := "b2" }

/-- A third bid on the same job that is no longer pending. -/
def c4KeptBid : BazaarBid :=
  { baseBid with
    bid_id := "b3"
    status := .counter_offered }

/-- The C4 witness store: an open job with two pending bids and one
counter-offered bid. -/
def c4WSt : Mkt :=
  { jobs := [baseJob], bids := [baseBid, c4OtherBid, c4KeptBid], agents := [baseAgent],
    txns := [] }

/-- The C4 witness store after accepting bid `b1`. -/
def c4WRes : Mkt := ((accept_bid c4WSt "j1" "b1" "p1").toOption).getD c4WSt

/-- C4 witness: accepting `b1` marks it accepted, assigns the job without
recording a final price, rejects the other pending bid `b2`, carries the
counter-offered bid `b3` over untouched, and keeps the bid list's length. -/
theorem C4_witness :
    ((get_bid c4WRes "b1").map (fun x => (x.status, x.final_price_usd)) =
      some (.accepted, baseBid.final_price_usd)) ∧
    ((get_job c4WRes "j1").map (fun x =>
      (x.status, x.winning_bid_id, x.assigned_agent_id, x.final_price_usd)) =
      some (.assigned, some "b1", some baseBid.agent_id, baseJob.final_price_usd)) ∧
    { c4OtherBid with status := BidStatus.rejected } ∈ c4WRes.bids ∧
    c4KeptBid ∈ c4WRes.bids ∧
    c4WRes.bids.length = c4WSt.bids.length := by
  have h := (C4_accept_bid_spec c4WSt "j1" "b1" "p1").2.2 c4WRes baseJob baseBid
    (by rfl) (by rfl) (by rfl)
  exact ⟨h.1, h.2.1,
    h.2.2.1 c4OtherBid (List.mem_cons_of_mem _ (List.mem_cons_self _ _))
      (by rfl) (by decide) (by rfl),
    h.2.2.2.1 c4KeptBid
      (List.mem_cons_of_mem _ (List.mem_cons_of_mem _ (List.mem_cons_self _ _)))
      (by decide) (by decide),
    h.2.2.2.2⟩

/-! ### C1 — the approval gate -/

/-- The most recent price of a bid: the latest counter-offer price, or the
initial bid price when there is none. -/
def latest_price (b : BazaarBid) : ℚ :=
  match b.counter_offers.getLast? with
  | some c => c.price_usd
  | none => b.price_usd

/-- The gate invariant on one bid: once `requires_approval` is set, the bid
is never `pending`, and it is `accepted` only with `approved_by` set. -/
def bidOK (b : BazaarBid) : Prop :=
  b.requires_approval = true →
    b.status ≠ .pending ∧ (b.status = .accepted → b.approved_by ≠ none)

/-- The gate invariant over the store. -/
def bidsOK (st : Mkt) : Prop := ∀ b ∈ st.bids, bidOK b

/-- The operations C1 is amended to: everything except `select_winning_bid`. -/
def notSelectWinning : Op → Bool
  | .selectWinningBid _ _ => false
  | _ => true

/-- The C1 counterexample store: an open job and an available agent. -/
def c1St : Mkt := { jobs := [baseJob], bids := [], agents := [baseAgent], txns := [] }

/-- Trace A: submit a $15 bid and accept it directly. -/
def c1TraceA : List Op :=
  [.submitBid 0 "j1" "a1" "b1" 15 60 1 "plan", .acceptBid "j1" "b1" "p1"]

/-- Trace B: submit a $5 bid, counter to $12 (which sets the approval flag),
then `select_winning_bid` without any approval. -/
def c1TraceB : List Op :=
  [.submitBid 0 "j1" "a1" "b1" 5 60 1 "plan",
   .makeCounterOffer "b1" 12 "up" "poster",
   .selectWinningBid "j1" "b1"]

/-- C1 counterexample: two operation sequences each drive a bid whose latest
price is ≥ 10 into status `accepted` with `approved_by` unset — `accept_bid`
never looks at the price (trace A), and `select_winning_bid` checks neither
status nor approval (trace B, where `requires_approval` is even set). -/
theorem C1_counterexample :
    ((get_bid (run c1St c1TraceA) "b1").map
      (fun b => (b.status, b.approved_by, decide (10 ≤ latest_price b))) =
      some (.accepted, none, true)) ∧
    ((get_bid (run c1St c1TraceB) "b1").map
      (fun b => (b.status, b.approved_by, b.requires_approval,
        decide (10 ≤ latest_price b))) =
      some (.accepted, none, true, true)) :=
  ⟨by rfl, by rfl⟩

/-- `apply_review_rating` never touches bids. -/
theorem apply_review_rating_bids (st : Mkt) (a0 : Option BazaarAgent) (r : ℚ) :
    (apply_review_rating st a0 r).bids = st.bids := by
  unfold apply_review_rating
  split <;> simp

/-- A successful `release_payment` never touches bids. -/
theorem release_payment_bids (st : Mkt) (gw : Bool) (eid payee : String)
    (amt : Option ℚ) (tid : String) (st' : Mkt)
    (h : release_payment st gw eid payee amt tid = .ok st') : st'.bids = st.bids := by
  simp only [release_payment] at h
  split at h
  · exact absurd h (by simp)
  · split at h
    · exact absurd h (by simp)
    · split at h
      · exact absurd h (by simp)
      · split at h <;> rw [Except.ok.injEq] at h <;> subst h <;> simp

/-- `refund_payment` never touches bids. -/
theorem refund_payment_bids (st : Mkt) (gw : Bool) (eid tid : String) :
    (refund_payment st gw eid tid).2.bids = st.bids := by
  unfold refund_payment
  split
  · rfl
  · split
    · rfl
    · split
      · rfl
      · simp

/-- `partial_refund` never touches bids. -/
theorem partial_refund_bids (st : Mkt) (eid : String) (amt : ℚ) (tid : String) :
    (partial_refund st eid amt tid).2.bids = st.bids := by
  unfold partial_refund
  split
  · rfl
  · simp

/-- A successful `submit_human_review` never touches bids. -/
theorem submit_human_review_bids (st : Mkt) (gw : Bool) (jid : String)
    (d : ReviewDecision) (r : ℚ) (rv tid : String) (st' : Mkt)
    (h : submit_human_review st gw jid d r rv tid = .ok st') : st'.bids = st.bids := by
  cases d with
  | accept =>
    simp only [submit_human_review] at h
    split at h
    · exact absurd h (by simp)
    · split at h
      · exact absurd h (by simp)
      · split at h
        · exact absurd h (by simp)
        · split at h
          · rw [Except.ok.injEq] at h
            subst h
            simp [apply_review_rating_bids]
          · split at h
            · rename_i st2 hrel
              rw [Except.ok.injEq] at h
              subst h
              rw [apply_review_rating_bids]
              have h2 := release_payment_bids _ _ _ _ _ _ _ hrel
              split <;> simp [h2]
            · rw [Except.ok.injEq] at h
              subst h
              simp [apply_review_rating_bids]
  | partial_pay =>
    simp only [submit_human_review] at h
    split at h
    · exact absurd h (by simp)
    · split at h
      · exact absurd h (by simp)
      · split at h
        · exact absurd h (by simp)
        · split at h
          · rw [Except.ok.injEq] at h
            subst h
            simp [apply_review_rating_bids]
          · split at h
            · rename_i st2 hrel
              rw [Except.ok.injEq] at h
              subst h
              rw [apply_review_rating_bids]
              have h2 := release_payment_bids _ _ _ _ _ _ _ hrel
              split <;> simp [h2]
            · rw [Except.ok.injEq] at h
              subst h
              simp [apply_review_rating_bids]
  | reject =>
    simp only [submit_human_review] at h
    split at h
    · exact absurd h (by simp)
    · split at h
      · exact absurd h (by simp)
      · split at h
        · exact absurd h (by simp)
        · split at h
          · rw [Except.ok.injEq] at h
            subst h
            simp [apply_review_rating_bids]
          · rw [Except.ok.injEq] at h
            subst h
            rw [apply_review_rating_bids]
            split <;> simp [refund_payment_bids]

/-- The rejected-status bid trivially satisfies the gate invariant. -/
theorem bidOK_of_terminal {b : BazaarBid} (h : b.status = .rejected ∨ b.status = .withdrawn) :
    bidOK b := by
  intro _
  rcases h with h | h <;> rw [h] <;> exact ⟨by simp, by simp⟩

/-- One step of the gate invariant: every public operation except
`select_winning_bid` preserves `bidsOK`. -/
theorem bidsOK_applyOp (st : Mkt) (op : Op) (h0 : bidsOK st)
    (hop : notSelectWinning op = true) : bidsOK (applyOp st op) := by
  cases op with
  | submitBid now jid aid bidid p e c ap =>
    cases hres : submit_bid st now jid aid bidid p e c ap with
    | error er => simpa [applyOp, hres, Except.toOption] using h0
    | ok st' =>
      simp only [applyOp, hres, Except.toOption, Option.getD]
      simp only [submit_bid] at hres
      split at hres
      · exact absurd hres (by simp)
      · split at hres
        · exact absurd hres (by simp)
        · split at hres
          · exact absurd hres (by simp)
          · split at hres
            · exact absurd hres (by simp)
            · split at hres
              · exact absurd hres (by simp)
              · split at hres
                · exact absurd hres (by simp)
                · split at hres
                  · exact absurd hres (by simp)
                  · rw [Except.ok.injEq] at hres
                    subst hres
                    intro x hx
                    rw [create_bid_bids] at hx
                    rcases List.mem_append.mp hx with hx | hx
                    · exact h0 x hx
                    · rw [List.mem_singleton.mp hx]
                      intro hra
                      exact absurd hra (by simp)
  | makeCounterOffer bidid pr msg who =>
    cases hres : make_counter_offer st bidid pr msg who with
    | error er => simpa [applyOp, hres, Except.toOption] using h0
    | ok st' =>
      simp only [applyOp, hres, Except.toOption, Option.getD]
      simp only [make_counter_offer] at hres
      split at hres
      · exact absurd hres (by simp)
      · split at hres
        · exact absurd hres (by simp)
        · split at hres
          · exact absurd hres (by simp)
          · split at hres <;> rw [Except.ok.injEq] at hres <;> subst hres <;>
              intro x hx <;>
              simp only [update_job_bids, update_bid_bids] at hx <;>
              rcases mem_updateFirst hx with hmem | ⟨a, _, rfl⟩
            · exact h0 x hmem
            · intro hra
              simp only at hra
              refine ⟨?_, ?_⟩ <;> simp only [hra] <;> simp
            · exact h0 x hmem
            · intro hra
              simp only at hra
              refine ⟨?_, ?_⟩ <;> simp only [hra] <;> simp
  | acceptCounterOffer bidid who =>
    cases hres : accept_counter_offer st bidid who with
    | error er => simpa [applyOp, hres, Except.toOption] using h0
    | ok st' =>
      simp only [applyOp, hres, Except.toOption, Option.getD]
      simp only [accept_counter_offer] at hres
      split at hres
      · exact absurd hres (by simp)
      · split at hres
        · exact absurd hres (by simp)
        · split at hres <;> rw [Except.ok.injEq] at hres <;> subst hres <;>
            intro x hx <;>
            simp only [update_bid_bids] at hx <;>
            rcases mem_updateFirst hx with hmem | ⟨a, _, rfl⟩
          · exact h0 x hmem
          · intro _
            exact ⟨by simp, by simp⟩
          · exact h0 x hmem
          · intro _
            exact ⟨by simp, by simp⟩
  | approveBid bidid approver =>
    cases hres : approve_bid st bidid approver with
    | error er => simpa [applyOp, hres, Except.toOption] using h0
    | ok st' =>
      simp only [applyOp, hres, Except.toOption, Option.getD]
      simp only [approve_bid] at hres
      split at hres
      · exact absurd hres (by simp)
      · split at hres
        · exact absurd hres (by simp)
        · rw [Except.ok.injEq] at hres
          subst hres
          intro x hx
          simp only [update_job_bids, update_bid_bids] at hx
          rcases mem_updateFirst hx with hmem | ⟨a, _, rfl⟩
          · exact h0 x hmem
          · intro _
            exact ⟨by simp, fun _ => by simp⟩
  | rejectBid bidid rej reason =>
    cases hres : reject_bid st bidid rej reason with
    | error er => simpa [applyOp, hres, Except.toOption] using h0
    | ok st' =>
      simp only [applyOp, hres, Except.toOption, Option.getD]
      simp only [reject_bid] at hres
      split at hres
      · exact absurd hres (by simp)
      · rw [Except.ok.injEq] at hres
        subst hres
        intro x hx
        simp only [update_bid_bids] at hx
        rcases mem_updateFirst hx with hmem | ⟨a, _, rfl⟩
        · exact h0 x hmem
        · exact bidOK_of_terminal (Or.inl rfl)
  | withdrawBid bidid aid =>
    cases hres : withdraw_bid st bidid aid with
    | error er => simpa [applyOp, hres, Except.toOption] using h0
    | ok st' =>
      simp only [applyOp, hres, Except.toOption, Option.getD]
      simp only [withdraw_bid] at hres
      split at hres
      · exact absurd hres (by simp)
      · split at hres
        · exact absurd hres (by simp)
        · split at hres
          · exact absurd hres (by simp)
          · rw [Except.ok.injEq] at hres
            subst hres
            intro x hx
            simp only [update_bid_bids] at hx
            rcases mem_updateFirst hx with hmem | ⟨a, _, rfl⟩
            · exact h0 x hmem
            · exact bidOK_of_terminal (Or.inr rfl)
  | acceptBid jid bidid poster =>
    cases hres : accept_bid st jid bidid poster with
    | error er => simpa [applyOp, hres, Except.toOption] using h0
    | ok st' =>
      simp only [applyOp, hres, Except.toOption, Option.getD]
      simp only [accept_bid] at hres
      split at hres
      · exact absurd hres (by simp)
      · split at hres
        · exact absurd hres (by simp)
        · split at hres
          · exact absurd hres (by simp)
          · split at hres
            · exact absurd hres (by simp)
            · rename_i b hb
              split at hres
              · exact absurd hres (by simp)
              · split at hres
                · exact absurd hres (by simp)
                · rename_i hbjob hbstat
                  rw [Except.ok.injEq] at hres
                  subst hres
                  have hbOK := h0 b (List.mem_of_find?_eq_some hb)
                  have hbra : b.requires_approval = false := by
                    by_contra hc
                    have hra : b.requires_approval = true :=
                      Bool.not_eq_false _ ▸ (by simpa using hc)
                    exact (hbOK hra).1 (not_not.mp hbstat)
                  intro x hx
                  simp only [update_agent_bids, update_job_bids, update_bid_bids] at hx
                  obtain ⟨y, hy, rfl⟩ := List.mem_map.mp hx
                  have hyOK : bidOK y := by
                    rcases mem_updateFirst hy with hmem | ⟨a, hfa, rfl⟩
                    · exact h0 y hmem
                    · have hb' : List.find? (fun x => x.bid_id == bidid) st.bids = some b := hb
                      rw [hb'] at hfa
                      rw [Option.some.injEq] at hfa
                      subst hfa
                      intro hra
                      simp only at hra
                      exact absurd hra (by simp [hbra])
                  split
                  · exact bidOK_of_terminal (Or.inl rfl)
                  · exact hyOK
  | selectWinningBid jid bidid => exact absurd hop (by simp [notSelectWinning])
  | releasePayment gw eid payee amt tid =>
    cases hres : release_payment st gw eid payee amt tid with
    | error er => simpa [applyOp, hres, Except.toOption] using h0
    | ok st' =>
      simp only [applyOp, hres, Except.toOption, Option.getD]
      intro x hx
      rw [release_payment_bids _ _ _ _ _ _ _ hres] at hx
      exact h0 x hx
  | refundPayment gw eid tid =>
    intro x hx
    simp only [applyOp] at hx
    rw [refund_payment_bids] at hx
    exact h0 x hx
  | partialRefund eid amt tid =>
    intro x hx
    simp only [applyOp] at hx
    rw [partial_refund_bids] at hx
    exact h0 x hx
  | humanReview gw jid d r rv tid =>
    cases hres : submit_human_review st gw jid d r rv tid with
    | error er => simpa [applyOp, hres, Except.toOption] using h0
    | ok st' =>
      simp only [applyOp, hres, Except.toOption, Option.getD]
      intro x hx
      rw [submit_human_review_bids _ _ _ _ _ _ _ _ hres] at hx
      exact h0 x hx

/-- The gate invariant along any run of allowed operations. -/
theorem bidsOK_run (st : Mkt) (ops : List Op) (h0 : bidsOK st)
    (hops : ∀ op ∈ ops, notSelectWinning op = true) : bidsOK (run st ops) := by
  induction ops generalizing st with
  | nil => exact h0
  | cons op rest ih =>
    exact ih (applyOp st op)
      (bidsOK_applyOp st op h0 (hops op (by simp)))
      (fun o ho => hops o (List.mem_cons_of_mem _ ho))

/-- C1 amended: under every operation sequence that avoids
`select_winning_bid`, a Bid whose `requires_approval` flag is set (the flag a
counter-offer at ≥ $10 sets) can never be `accepted` with `approved_by`
unset — `approve_bid` is the only way out of `awaiting_approval`, and it
records the approver. The original claim fails through `accept_bid` on a
never-countered bid priced ≥ $10 (whose flag was never set) and through
`select_winning_bid`, which checks nothing. -/
theorem C1_approval_gate (st : Mkt) (ops : List Op) (h0 : bidsOK st)
    (hops : ∀ op ∈ ops, notSelectWinning op = true) :
    ∀ b ∈ (run st ops).bids, b.requires_approval = true → b.status = .accepted →
      b.approved_by ≠ none := by
  intro b hb hra hacc
  exact ((bidsOK_run st ops h0 hops) b hb hra).2 hacc

/-- The C1 witness trace: negotiate to $12, accept, then approve. -/
def c1WOps : List Op :=
  [.submitBid 0 "j1" "a1" "b1" 5 60 1 "plan",
   .makeCounterOffer "b1" 12 "up" "poster",
   .acceptCounterOffer "b1" "agent",
   .approveBid "b1" "boss"]

/-- The bid produced by the C1 witness trace. -/
def c1WBid : BazaarBid :=
  { bid_id := "b1", job_id := "j1", agent_id := "a1", price_usd := 5,
    estimated_time_seconds := 60, confidence := 1, approach := "plan",
    counter_offers := [{ price_usd := 12, message := "up", by_ := "poster" }],
    final_price_usd := some 12, requires_approval := true,
    approval_reason := some "Transaction exceeds threshold",
    approved_by := some "boss", status := .accepted }

/-- C1 witness: the approved bid of the witness trace carries its approver. -/
theorem C1_witness : c1WBid.approved_by ≠ none :=
  C1_approval_gate c1St c1WOps
    (fun b hb => absurd hb (List.not_mem_nil b))
    (by decide)
    c1WBid
    ((show (run c1St c1WOps).bids = [c1WBid] from rfl) ▸ List.mem_singleton_self c1WBid)
    (by rfl) (by rfl)

/-! ### C2 — escrow disbursement bound -/

/-- The transactions that count as disbursements against a job's escrow. -/
def disbPred (jid : String) : BazaarTransaction → Bool := fun t =>
  (t.txn_type == .release || t.txn_type == .refund) && t.job_id == jid

/-- The live (still escrowed) transactions of a job. -/
def escPred (jid : String) : BazaarTransaction → Bool := fun t =>
  t.job_id == jid && t.status == .escrowed

/-- The sum of all release and refund amounts recorded against a job. -/
def disbursement_total (st : Mkt) (jid : String) : ℚ :=
  ((st.txns.filter (disbPred jid)).map (fun t => t.amount_usd)).sum

/-- The escrow-accounting invariant on a transaction ledger: every live
escrow of the job is within `cap`, there is at most one, nothing has been
disbursed while one is live, and the disbursed sum is within `cap`. -/
def escrowLedgerOK (jid : String) (cap : ℚ) (l : List BazaarTransaction) : Prop :=
  (∀ t ∈ l, escPred jid t = true → t.amount_usd ≤ cap) ∧
  (l.filter (escPred jid)).length ≤ 1 ∧
  (0 < (l.filter (escPred jid)).length →
    ((l.filter (disbPred jid)).map (fun t => t.amount_usd)).sum = 0) ∧
  ((l.filter (disbPred jid)).map (fun t => t.amount_usd)).sum ≤ cap

/-- The operations C2 is amended to: no `partial_refund`, no review handler,
and every explicit release request within `cap`. -/
def C2OpOK (cap : ℚ) : Op → Bool
  | .partialRefund _ _ _ => false
  | .humanReview _ _ _ _ _ _ => false
  | .releasePayment _ _ _ amt _ =>
      match amt with
      | none => true
      | some a => decide (a ≤ cap)
  | _ => true

/-- A successful `submit_bid` never touches transactions. -/
theorem submit_bid_txns (st : Mkt) (now : Nat) (jid aid bidid : String)
    (p e c : ℚ) (ap : String) (st' : Mkt)
    (h : submit_bid st now jid aid bidid p e c ap = .ok st') : st'.txns = st.txns := by
  simp only [submit_bid] at h
  split at h
  · exact absurd h (by simp)
  · split at h
    · exact absurd h (by simp)
    · split at h
      · exact absurd h (by simp)
      · split at h
        · exact absurd h (by simp)
        · split at h
          · exact absurd h (by simp)
          · split at h
            · exact absurd h (by simp)
            · split at h
              · exact absurd h (by simp)
              · rw [Except.ok.injEq] at h
                subst h
                rfl

/-- A successful `make_counter_offer` never touches transactions. -/
theorem make_counter_offer_txns (st : Mkt) (bidid : String) (pr : ℚ) (m w : String)
    (st' : Mkt) (h : make_counter_offer st bidid pr m w = .ok st') : st'.txns = st.txns := by
  simp only [make_counter_offer] at h
  split at h
  · exact absurd h (by simp)
  · split at h
    · exact absurd h (by simp)
    · split at h
      · exact absurd h (by simp)
      · split at h <;> rw [Except.ok.injEq] at h <;> subst h <;> simp

/-- A successful `accept_counter_offer` never touches transactions. -/
theorem accept_counter_offer_txns (st : Mkt) (bidid w : String) (st' : Mkt)
    (h : accept_counter_offer st bidid w = .ok st') : st'.txns = st.txns := by
  simp only [accept_counter_offer] at h
  split at h
  · exact absurd h (by simp)
  · split at h
    · exact absurd h (by simp)
    · split at h <;> rw [Except.ok.injEq] at h <;> subst h <;> simp

/-- A successful `approve_bid` never touches transactions. -/
theorem approve_bid_txns (st : Mkt) (bidid apr : String) (st' : Mkt)
    (h : approve_bid st bidid apr = .ok st') : st'.txns = st.txns := by
  simp only [approve_bid] at h
  split at h
  · exact absurd h (by simp)
  · split at h
    · exact absurd h (by simp)
    · rw [Except.ok.injEq] at h
      subst h
      simp

/-- A successful `reject_bid` never touches transactions. -/
theorem reject_bid_txns (st : Mkt) (bidid rej rs : String) (st' : Mkt)
    (h : reject_bid st bidid rej rs = .ok st') : st'.txns = st.txns := by
  simp only [reject_bid] at h
  split at h
  · exact absurd h (by simp)
  · rw [Except.ok.injEq] at h
    subst h
    rfl

/-- A successful `withdraw_bid` never touches transactions. -/
theorem withdraw_bid_txns (st : Mkt) (bidid aid : String) (st' : Mkt)
    (h : withdraw_bid st bidid aid = .ok st') : st'.txns = st.txns := by
  simp only [withdraw_bid] at h
  split at h
  · exact absurd h (by simp)
  · split at h
    · exact absurd h (by simp)
    · split at h
      · exact absurd h (by simp)
      · rw [Except.ok.injEq] at h
        subst h
        rfl

/-- A successful `accept_bid` never touches transactions. -/
theorem accept_bid_txns (st : Mkt) (jid bidid poster : String) (st' : Mkt)
    (h : accept_bid st jid bidid poster = .ok st') : st'.txns = st.txns := by
  simp only [accept_bid] at h
  split at h
  · exact absurd h (by simp)
  · split at h
    · exact absurd h (by simp)
    · split at h
      · exact absurd h (by simp)
      · split at h
        · exact absurd h (by simp)
        · split at h
          · exact absurd h (by simp)
          · split at h
            · exact absurd h (by simp)
            · rw [Except.ok.injEq] at h
              subst h
              simp

/-- A successful `select_winning_bid` never touches transactions. -/
theorem select_winning_bid_txns (st : Mkt) (jid bidid : String) (st' : Mkt)
    (h : select_winning_bid st jid bidid = .ok st') : st'.txns = st.txns := by
  simp only [select_winning_bid] at h
  split at h
  · exact absurd h (by simp)
  · split at h
    · exact absurd h (by simp)
    · split at h
      · exact absurd h (by simp)
      · rw [Except.ok.injEq] at h
        subst h
        simp

/-- The heart of C2: flipping one live escrow out of `escrowed` status while
appending one disbursement of its job (bounded by `cap` when the escrow is
ours) preserves the ledger invariant. -/
theorem ledgerOK_disburse (jid : String) (cap : ℚ) (l : List BazaarTransaction)
    (eid : String) (e rel : BazaarTransaction) (s' : TransactionStatus)
    (hfind : l.find? (fun t => t.txn_id == eid) = some e)
    (hesc : e.status = .escrowed)
    (hrelesc : escPred jid rel = false)
    (hreljob : rel.job_id = e.job_id)
    (hreltype : (rel.txn_type == TransactionType.release ||
      rel.txn_type == TransactionType.refund) = true)
    (hs' : s' ≠ TransactionStatus.escrowed)
    (hamt : e.job_id = jid → rel.amount_usd ≤ cap)
    (h0 : escrowLedgerOK jid cap l) :
    escrowLedgerOK jid cap
      (updateFirst (fun t => t.txn_id == eid) (fun t => { t with status := s' }) l ++ [rel]) := by
  obtain ⟨h1, h2, h3, h4⟩ := h0
  obtain ⟨l1, l2, hl, hl1, hupd⟩ := find?_eq_some_decomp hfind
  rw [hupd (fun t => { t with status := s' })]
  have hesc_e' : escPred jid ({ e with status := s' } : BazaarTransaction) = false := by
    simp [escPred, hs']
  have hdisb_e' : disbPred jid ({ e with status := s' } : BazaarTransaction) = disbPred jid e :=
    rfl
  subst hl
  by_cases hjob : e.job_id = jid
  · have hescE : escPred jid e = true := by simp [escPred, hjob, hesc]
    have hrel_disb : disbPred jid rel = true := by
      simp [disbPred, hreltype, hreljob, hjob]
    have hlen : (List.filter (escPred jid) l1).length = 0 ∧
        (List.filter (escPred jid) l2).length = 0 := by
      simp only [List.filter_append, List.filter_cons, hescE, if_true,
        List.length_append, List.length_cons] at h2
      omega
    have hF1 : List.filter (escPred jid) l1 = [] := List.length_eq_zero.mp hlen.1
    have hF2 : List.filter (escPred jid) l2 = [] := List.length_eq_zero.mp hlen.2
    have hS0 : ((List.filter (disbPred jid) (l1 ++ e :: l2)).map
        (fun t => t.amount_usd)).sum = 0 := by
      apply h3
      simp [List.filter_append, List.filter_cons, hescE]
    refine ⟨?_, ?_, ?_, ?_⟩
    · intro t ht hesct
      rcases List.mem_append.mp ht with ht | ht
      · rcases List.mem_append.mp ht with ht | ht
        · have : t ∈ List.filter (escPred jid) l1 := List.mem_filter.mpr ⟨ht, hesct⟩
          rw [hF1] at this
          exact absurd this (List.not_mem_nil t)
        · rcases List.mem_cons.mp ht with rfl | ht
          · rw [hesc_e'] at hesct
            exact absurd hesct (by simp)
          · have : t ∈ List.filter (escPred jid) l2 := List.mem_filter.mpr ⟨ht, hesct⟩
            rw [hF2] at this
            exact absurd this (List.not_mem_nil t)
      · rw [List.mem_singleton.mp ht, hrelesc] at hesct
        exact absurd hesct (by simp)
    · simp [List.filter_append, List.filter_cons, hesc_e', hF1, hF2, hrelesc]
    · intro hpos
      simp [List.filter_append, List.filter_cons, hesc_e', hF1, hF2, hrelesc] at hpos
    · have key : ((List.filter (disbPred jid) ((l1 ++ { e with status := s' } :: l2) ++ [rel])).map
          (fun t => t.amount_usd)).sum =
          ((List.filter (disbPred jid) (l1 ++ e :: l2)).map (fun t => t.amount_usd)).sum +
            rel.amount_usd := by
        cases hd : disbPred jid e <;>
          simp [List.filter_append, List.filter_cons, hd, hdisb_e', hrel_disb,
            List.map_append, List.sum_append] <;> ring
      rw [key, hS0, zero_add]
      exact hamt hjob
  · have hescE : escPred jid e = false := by simp [escPred, hjob]
    have hrel_disb : disbPred jid rel = false := by
      simp [disbPred, hreljob, hjob]
    have hFeq : List.filter (escPred jid) ((l1 ++ { e with status := s' } :: l2) ++ [rel]) =
        List.filter (escPred jid) (l1 ++ e :: l2) := by
      simp [List.filter_append, List.filter_cons, hescE, hesc_e', hrelesc]
    have hSeq : ((List.filter (disbPred jid) ((l1 ++ { e with status := s' } :: l2) ++ [rel])).map
        (fun t => t.amount_usd)).sum =
        ((List.filter (disbPred jid) (l1 ++ e :: l2)).map (fun t => t.amount_usd)).sum := by
      cases hd : disbPred jid e <;>
        simp [List.filter_append, List.filter_cons, hd, hdisb_e', hrel_disb,
          List.map_append, List.sum_append]
    refine ⟨?_, ?_, ?_, ?_⟩
    · intro t ht hesct
      rcases List.mem_append.mp ht with ht | ht
      · rcases List.mem_append.mp ht with ht | ht
        · exact h1 t (List.mem_append_left _ ht) hesct
        · rcases List.mem_cons.mp ht with rfl | ht
          · rw [hesc_e'] at hesct
            exact absurd hesct (by simp)
          · exact h1 t (List.mem_append_right _ (List.mem_cons_of_mem _ ht)) hesct
      · rw [List.mem_singleton.mp ht, hrelesc] at hesct
        exact absurd hesct (by simp)
    · rw [hFeq]
      exact h2
    · intro hpos
      rw [hFeq] at hpos
      rw [hSeq]
      exact h3 hpos
    · rw [hSeq]
      exact h4

/-- A successful `release_payment` whose explicit amount (if any) is within
`cap` preserves the ledger invariant. -/
theorem ledgerOK_release (jid : String) (cap : ℚ) (st : Mkt) (gw : Bool)
    (eid payee : String) (amt : Option ℚ) (tid : String) (st' : Mkt)
    (h : release_payment st gw eid payee amt tid = .ok st')
    (hamtop : ∀ a, amt = some a → a ≤ cap)
    (h0 : escrowLedgerOK jid cap st.txns) : escrowLedgerOK jid cap st'.txns := by
  simp only [release_payment] at h
  split at h
  · exact absurd h (by simp)
  · rename_i e hget
    split at h
    · exact absurd h (by simp)
    · rename_i hst
      split at h
      · exact absurd h (by simp)
      · have hfind : st.txns.find? (fun t => t.txn_id == eid) = some e := hget
        have hesc : e.status = .escrowed := not_not.mp hst
        have hmem : e ∈ st.txns := List.mem_of_find?_eq_some hfind
        have hamt : e.job_id = jid → orFalsy amt e.amount_usd ≤ cap := by
          intro hjob
          have hcap : e.amount_usd ≤ cap :=
            h0.1 e hmem (by simp [escPred, hjob, hesc])
          cases amt with
          | none => exact hcap
          | some a =>
            by_cases hz : a = 0
            · simpa [orFalsy, hz] using hcap
            · simpa [orFalsy, hz] using hamtop a rfl
        split at h <;> rw [Except.ok.injEq] at h <;> subst h <;>
          simp only [update_agent_txns, update_transaction_txns, create_transaction_txns] <;>
          rw [updateFirst_append_left hfind] <;>
          exact ledgerOK_disburse jid cap st.txns eid e _ _ hfind hesc
            (by simp [escPred]) rfl (by simp) (by simp) hamt h0

/-- `refund_payment` preserves the ledger invariant. -/
theorem ledgerOK_refund (jid : String) (cap : ℚ) (st : Mkt) (gw : Bool)
    (eid tid : String)
    (h0 : escrowLedgerOK jid cap st.txns) :
    escrowLedgerOK jid cap ((refund_payment st gw eid tid).2).txns := by
  unfold refund_payment
  split
  · exact h0
  · rename_i e hget
    split
    · exact h0
    · rename_i hst
      split
      · exact h0
      · have hfind : st.txns.find? (fun t => t.txn_id == eid) = some e := hget
        have hesc : e.status = .escrowed := not_not.mp hst
        have hmem : e ∈ st.txns := List.mem_of_find?_eq_some hfind
        have hamt : e.job_id = jid → e.amount_usd ≤ cap := fun hjob =>
          h0.1 e hmem (by simp [escPred, hjob, hesc])
        simp only [update_transaction_txns, create_transaction_txns]
        rw [updateFirst_append_left hfind]
        exact ledgerOK_disburse jid cap st.txns eid e _ _ hfind hesc
          (by simp [escPred]) rfl (by simp) (by simp) hamt h0

/-- One step of the C2 ledger invariant. -/
theorem ledgerOK_applyOp (jid : String) (cap : ℚ) (st : Mkt) (op : Op)
    (h0 : escrowLedgerOK jid cap st.txns) (hop : C2OpOK cap op = true) :
    escrowLedgerOK jid cap (applyOp st op).txns := by
  cases op with
  | submitBid now j a b p e c ap =>
    cases hres : submit_bid st now j a b p e c ap with
    | error er => simpa [applyOp, hres, Except.toOption] using h0
    | ok st' =>
      simp only [applyOp, hres, Except.toOption, Option.getD]
      rw [submit_bid_txns _ _ _ _ _ _ _ _ _ _ hres]
      exact h0
  | makeCounterOffer b pr m w =>
    cases hres : make_counter_offer st b pr m w with
    | error er => simpa [applyOp, hres, Except.toOption] using h0
    | ok st' =>
      simp only [applyOp, hres, Except.toOption, Option.getD]
      rw [make_counter_offer_txns _ _ _ _ _ _ hres]
      exact h0
  | acceptCounterOffer b w =>
    cases hres : accept_counter_offer st b w with
    | error er => simpa [applyOp, hres, Except.toOption] using h0
    | ok st' =>
      simp only [applyOp, hres, Except.toOption, Option.getD]
      rw [accept_counter_offer_txns _ _ _ _ hres]
      exact h0
  | approveBid b ap =>
    cases hres : approve_bid st b ap with
    | error er => simpa [applyOp, hres, Except.toOption] using h0
    | ok st' =>
      simp only [applyOp, hres, Except.toOption, Option.getD]
      rw [approve_bid_txns _ _ _ _ hres]
      exact h0
  | rejectBid b r re =>
    cases hres : reject_bid st b r re with
    | error er => simpa [applyOp, hres, Except.toOption] using h0
    | ok st' =>
      simp only [applyOp, hres, Except.toOption, Option.getD]
      rw [reject_bid_txns _ _ _ _ _ hres]
      exact h0
  | withdrawBid b a =>
    cases hres : withdraw_bid st b a with
    | error er => simpa [applyOp, hres, Except.toOption] using h0
    | ok st' =>
      simp only [applyOp, hres, Except.toOption, Option.getD]
      rw [withdraw_bid_txns _ _ _ _ hres]
      exact h0
  | acceptBid j b p =>
    cases hres : accept_bid st j b p with
    | error er => simpa [applyOp, hres, Except.toOption] using h0
    | ok st' =>
      simp only [applyOp, hres, Except.toOption, Option.getD]
      rw [accept_bid_txns _ _ _ _ _ hres]
      exact h0
  | selectWinningBid j b =>
    cases hres : select_winning_bid st j b with
    | error er => simpa [applyOp, hres, Except.toOption] using h0
    | ok st' =>
      simp only [applyOp, hres, Except.toOption, Option.getD]
      rw [select_winning_bid_txns _ _ _ _ hres]
      exact h0
  | releasePayment gw eid payee amt tid =>
    cases hres : release_payment st gw eid payee amt tid with
    | error er => simpa [applyOp, hres, Except.toOption] using h0
    | ok st' =>
      simp only [applyOp, hres, Except.toOption, Option.getD]
      refine ledgerOK_release jid cap st gw eid payee amt tid st' hres ?_ h0
      intro a ha
      rw [ha] at hop
      exact of_decide_eq_true hop
  | refundPayment gw eid tid =>
    exact ledgerOK_refund jid cap st gw eid tid h0
  | partialRefund eid amtp tid => exact absurd hop (by simp [C2OpOK])
  | humanReview gw j d r rv tid => exact absurd hop (by simp [C2OpOK])

/-- The C2 ledger invariant along a run. -/
theorem ledgerOK_run (jid : String) (cap : ℚ) (st : Mkt) (ops : List Op)
    (h0 : escrowLedgerOK jid cap st.txns)
    (hops : ∀ op ∈ ops, C2OpOK cap op = true) :
    escrowLedgerOK jid cap (run st ops).txns := by
  induction ops generalizing st with
  | nil => exact h0
  | cons op rest ih =>
    exact ih (applyOp st op)
      (ledgerOK_applyOp jid cap st op h0 (hops op (by simp)))
      (fun o ho => hops o (List.mem_cons_of_mem _ ho))

/-- The C2 store: one 10-unit live escrow for job `j1`, nothing disbursed. -/
def c2St : Mkt := { jobs := [], bids := [], agents := [baseAgent], txns := [baseEscrow] }

/-- Two full-amount partial refunds against the same escrow. -/
def c2TraceA : List Op := [.partialRefund "e1" 10 "t1", .partialRefund "e1" 10 "t2"]

/-- One release for ten times the escrow amount. -/
def c2TraceB : List Op := [.releasePayment true "e1" "a1" (some 100) "t3"]

/-- C2 counterexample: `partial_refund` is not status-gated and never marks
the escrow, so two full-amount partial refunds disburse 20 against a 10-unit
escrow; and `release_payment` never caps its amount, so a single release of
100 against the same escrow also breaks the bound. -/
theorem C2_counterexample :
    baseEscrow.amount_usd = 10 ∧
    disbursement_total (run c2St c2TraceA) "j1" = 20 ∧ ¬ (20 : ℚ) ≤ 10 ∧
    disbursement_total (run c2St c2TraceB) "j1" = 100 ∧ ¬ (100 : ℚ) ≤ 10 := by
  refine ⟨rfl, ?_, by norm_num, ?_, by norm_num⟩
  · rw [show disbursement_total (run c2St c2TraceA) "j1" = ([10, 10] : List ℚ).sum from rfl]
    norm_num
  · rw [show disbursement_total (run c2St c2TraceB) "j1" = ([100] : List ℚ).sum from rfl]
    norm_num

/-- C2 amended: restricted to the status-gated disbursements (`release_payment`
and `refund_payment`, excluding `partial_refund` and the review handler's
wrapper) and to release requests that do not exceed the escrow amount `cap`,
the sum of all release and refund amounts recorded against the job never
exceeds `cap`, from any store whose ledger satisfies the escrow-accounting
invariant (at most one live escrow for the job, each within `cap`, nothing
disbursed while it is live). -/
theorem C2_escrow_bound (st : Mkt) (jid : String) (cap : ℚ) (ops : List Op)
    (h0 : escrowLedgerOK jid cap st.txns)
    (hops : ∀ op ∈ ops, C2OpOK cap op = true) :
    disbursement_total (run st ops) jid ≤ cap :=
  (ledgerOK_run jid cap st ops h0 hops).2.2.2

/-- The C2 witness trace: a partial release of 4, then a refund attempt (which
returns `None` because the escrow is already released). -/
def c2WOps : List Op :=
  [.releasePayment true "e1" "a1" (some 4) "t1", .refundPayment true "e1" "t2"]

/-- C2 witness: along the witness trace the disbursed total stays within the
10-unit escrow. -/
theorem C2_witness : disbursement_total (run c2St c2WOps) "j1" ≤ 10 :=
  C2_escrow_bound c2St "j1" 10 c2WOps (by unfold escrowLedgerOK; decide) (by decide)

end Agora
